import Mathlib

/-!
Verification of the engine reconciler of nickswift/fleet
(src/engine/reconciler.go) against its natural-language specification.

The reconciler's collaborators (the `job` package, the cluster snapshot,
the `Scheduler` interface, the `Engine` façade and the metrics package)
are not part of the provided sources; they are modelled from the spec
(§3, §4.2, §4.3, §4.5, §6) and marked as such below.  The reconciler
itself — `Reconcile`, `calculateClusterTasks` with its `decide` and
`send` closures, and `doTask` — is translated line by line from
src/engine/reconciler.go.

The stop channel of the Go code is a close-once channel polled with a
non-blocking `select` inside `send`.  It is modelled by `stopAt : Option
Nat` over a poll counter: `stopAt = some n` means the close becomes
observable from the n-th poll on (a close-once channel is observed
monotonically), `none` means the channel is never closed during the
pass.  The producer's behaviour is recorded as a trace of events
(metric reports, stop polls, task hand-offs); the consumer side of
`Reconcile` appends execution events.
-/

set_option maxHeartbeats 1000000

namespace Fleet

/-- Modelled from the spec: job target states `inactive|loaded|launched`
(§3); the `job` package is not under src/. -/
inductive JobState where
  | inactive
  | loaded
  | launched
deriving DecidableEq, Repr

/-- String form of a target state, as used by the Go `%s` format verb on
the (string-typed) `job.JobState`. -/
def JobState.toString : JobState → String
  | JobState.inactive => "inactive"
  | JobState.loaded => "loaded"
  | JobState.launched => "launched"

/-- Modelled from the spec: the constant `job.JobStateInactive` (§3). -/
def JobStateInactive : JobState := JobState.inactive

/-- Modelled from the spec: the `job.JobReschedule` reason marker
(§4.2 and scenario 4 of §8).  Claims about it compare reasons with the
marker itself, so only its identity matters, not its exact text. -/
def JobReschedule : String := "JobReschedule"

/-- Modelled from the spec: a job's fields as used by the reconciler
(§3).  `TargetMachineID = ""` means unscheduled. -/
structure Job where
  Name : String
  TargetState : JobState
  TargetMachineID : String
deriving DecidableEq, Repr

/-- Modelled from the spec: `Scheduled()` ⇔ `TargetMachineID ≠ ∅` (§3). -/
def Job.Scheduled (j : Job) : Bool := j.TargetMachineID != ""

/-- Modelled from the spec: the agent surface the reconciler consumes is
exactly `AbleToRun(job) → (bool, reason)` (§6, agent boundary). -/
structure AgentState where
  AbleToRun : Job → Bool × String

/-- Modelled from the spec: the per-pass cluster snapshot — current jobs
and current agents keyed by machine id (§4.2).  The snapshot code
(engine/cluster.go) is not under src/. -/
structure clusterState where
  jobs : List Job
  agentsL : List (String × AgentState)

/-- Modelled from the spec: the `agents()` map, `MachineID → AgentState`
(§4.2); built once per pass in `calculateClusterTasks`. -/
def clusterState.agents (cs : clusterState) : String → Option AgentState :=
  fun id => (cs.agentsL.find? (fun p => p.1 == id)).map Prod.snd

/-- Modelled from the spec: `unschedule(name)` clears the in-memory
scheduling for `name` so subsequent iterations of the same pass see it
as unscheduled (§4.2). -/
def clusterState.unschedule (cs : clusterState) (name : String) : clusterState :=
  { cs with jobs := cs.jobs.map fun j =>
      if j.Name = name then { j with TargetMachineID := "" } else j }

/-- Modelled from the spec: `schedule(name, machID)` records the
placement in the in-memory snapshot (§4.2). -/
def clusterState.schedule (cs : clusterState) (name machID : String) : clusterState :=
  { cs with jobs := cs.jobs.map fun j =>
      if j.Name = name then { j with TargetMachineID := machID } else j }

/-- Modelled from the spec: a scheduling decision carries the chosen
machine id (§4.3). -/
structure decision where
  machineID : String
deriving DecidableEq, Repr

/-- Modelled from the spec: `Decide(snapshot, job) → machineID | error`
(§4.3).  The reconciler is verified against an arbitrary scheduler. -/
abbrev Scheduler := clusterState → Job → Except String decision

/-- Source: reconciler.go line 27. -/
def taskTypeUnscheduleUnit : String := "UnscheduleUnit"

/-- Source: reconciler.go line 28. -/
def taskTypeAttemptScheduleUnit : String := "AttemptScheduleUnit"

/-- Source: reconciler.go lines 31–36.  The Go field `Type` is renamed
`typ` (`Type` is reserved in Lean). -/
structure task where
  typ : String
  Reason : String
  JobName : String
  MachineID : String
deriving DecidableEq, Repr

/-- Modelled from the spec: reconcile-failure kinds (§6, metrics
boundary). -/
inductive FailureKind where
  | MachineAway
  | RunFailure
  | ScheduleFailure
deriving DecidableEq, Repr

/-- Modelled from the spec: the metric counters the reconciler reports
(§6, metrics boundary). -/
inductive Metric where
  | ReconcileFailure (k : FailureKind)
  | EngineTask (typ : String)
  | EngineTaskFailure (typ : String)
  | ReconcileSuccess
deriving DecidableEq, Repr

/-- An observable event of one reconcile pass: a stop poll (with its
outcome), a task hand-off on the producer's channel, a task execution
by the consumer, or a metric report. -/
inductive Ev where
  | poll (stopped : Bool)
  | handOff (t : task)
  | exec (t : task)
  | metric (m : Metric)
deriving DecidableEq, Repr

/-- Whether the k-th poll of the stop channel observes the close.
`stopAt = some n`: the close is observable from poll n on. -/
def stopObserved (stopAt : Option Nat) (k : Nat) : Bool :=
  match stopAt with
  | none => false
  | some n => decide (n ≤ k)

/-- Source: reconciler.go lines 97–126, the `decide` closure.  Returns
the `(unschedule, reason)` pair together with the reconcile-failure
metrics reported while deciding (lines 108 and 120). -/
def decideJob (agents : String → Option AgentState) (j : Job) :
    (Bool × String) × List Metric :=
  if j.TargetState = JobStateInactive then
    ((true, "target state inactive"), [])
  else
    match agents j.TargetMachineID with
    | none =>
      ((true, "target Machine(" ++ j.TargetMachineID ++ ") went away"),
       [Metric.ReconcileFailure FailureKind.MachineAway])
    | some ag =>
      let ar := ag.AbleToRun j
      if ar.1 = false then
        if ar.2 = JobReschedule then
          ((true, ar.2), [])
        else
          ((true, "target Machine(" ++ j.TargetMachineID ++ ") unable to run unit"),
           [Metric.ReconcileFailure FailureKind.RunFailure])
      else
        ((false, ""), [])

/-- Result of the unschedule phase: its event trace, the snapshot after
its in-memory mutations, the poll counter, and whether the producer is
still alive (`cont = false` ⇔ `send` observed stop and the goroutine
returned, reconciler.go line 134). -/
structure Phase1Out where
  trace : List Ev
  clust : clusterState
  polls : Nat
  cont : Bool

/-- Source: reconciler.go lines 92–138, the unschedule phase.  For each
scheduled job the `decide` closure is evaluated (its metrics fire before
`send`); on an affirmative decision `send` polls the stop channel, and
either hands the `UnscheduleUnit` task off and applies
`clust.unschedule` or, on stop, returns without sending. -/
def unschedPhase (agents : String → Option AgentState) (stopAt : Option Nat) :
    List Job → clusterState → Nat → Phase1Out
  | [], c, p => ⟨[], c, p, true⟩
  | j :: rest, c, p =>
    if j.Scheduled = false then
      unschedPhase agents stopAt rest c p
    else
      let dr := decideJob agents j
      if dr.1.1 = false then
        let out := unschedPhase agents stopAt rest c p
        ⟨dr.2.map Ev.metric ++ out.trace, out.clust, out.polls, out.cont⟩
      else if stopObserved stopAt p then
        ⟨dr.2.map Ev.metric ++ [Ev.poll true], c, p, false⟩
      else
        let t : task := ⟨taskTypeUnscheduleUnit, dr.1.2, j.Name, j.TargetMachineID⟩
        let out := unschedPhase agents stopAt rest (c.unschedule j.Name) (p + 1)
        ⟨dr.2.map Ev.metric ++ Ev.poll false :: Ev.handOff t :: out.trace,
         out.clust, out.polls, out.cont⟩

/-- Result of the schedule phase: its event trace and the final
snapshot. -/
structure Phase2Out where
  trace : List Ev
  clust : clusterState

/-- Source: reconciler.go lines 140–159, the schedule phase.  For each
job still unscheduled and not inactive the scheduler is consulted; on
error a `ScheduleFailure` metric is reported and the loop continues; on
success `send` polls the stop channel and either hands the
`AttemptScheduleUnit` task off and applies `clust.schedule` or, on
stop, reports `ScheduleFailure` and returns. -/
def schedPhase (sched : Scheduler) (stopAt : Option Nat) :
    List Job → clusterState → Nat → Phase2Out
  | [], c, _ => ⟨[], c⟩
  | j :: rest, c, p =>
    if j.Scheduled = true ∨ j.TargetState = JobStateInactive then
      schedPhase sched stopAt rest c p
    else
      match sched c j with
      | Except.error _ =>
        let out := schedPhase sched stopAt rest c p
        ⟨Ev.metric (Metric.ReconcileFailure FailureKind.ScheduleFailure) :: out.trace,
         out.clust⟩
      | Except.ok dec =>
        if stopObserved stopAt p then
          ⟨[Ev.poll true, Ev.metric (Metric.ReconcileFailure FailureKind.ScheduleFailure)], c⟩
        else
          let reason := "target state " ++ j.TargetState.toString ++ " and unit not scheduled"
          let t : task := ⟨taskTypeAttemptScheduleUnit, reason, j.Name, dec.machineID⟩
          let out := schedPhase sched stopAt rest (c.schedule j.Name dec.machineID) (p + 1)
          ⟨Ev.poll false :: Ev.handOff t :: out.trace, out.clust⟩

/-- Result of the task producer: its event trace and the snapshot with
all in-memory mutations of the pass. -/
structure PassOut where
  trace : List Ev
  clust : clusterState

/-- Source: reconciler.go lines 73–163, `calculateClusterTasks`.
`agents()` is computed once; the unschedule phase runs over the whole
job list first and, unless `send` observed stop, the schedule phase
then runs over the mutated snapshot's job list. -/
def calculateClusterTasks (sched : Scheduler) (clust : clusterState)
    (stopAt : Option Nat) : PassOut :=
  let agents := clust.agents
  let o1 := unschedPhase agents stopAt clust.jobs clust 0
  if o1.cont then
    let o2 := schedPhase sched stopAt o1.clust.jobs o1.clust o1.polls
    ⟨o1.trace ++ o2.trace, o2.clust⟩
  else
    ⟨o1.trace, o1.clust⟩

/-- The tasks handed off on the producer's channel, in order. -/
def emittedTasks (tr : List Ev) : List task :=
  tr.filterMap fun e => match e with
    | Ev.handOff t => some t
    | _ => none

/-- The metrics reported in a trace, in order. -/
def metricsOf (tr : List Ev) : List Metric :=
  tr.filterMap fun e => match e with
    | Ev.metric m => some m
    | _ => none

/-- The task list of one full pass of the producer. -/
def passTasks (sched : Scheduler) (clust : clusterState) (stopAt : Option Nat) :
    List task :=
  emittedTasks (calculateClusterTasks sched clust stopAt).trace

/-- Modelled from the spec: the Engine façade exposes exactly
`clusterState()`, `unscheduleUnit` and `attemptScheduleUnit` (§4.5).
`unscheduleUnit` returns an error or `none`; the result of
`attemptScheduleUnit` is modelled as an opaque Bool because `doTask`
discards it (reconciler.go line 171). -/
structure Engine where
  clusterState : Except String clusterState
  unscheduleUnit : String → String → Option String
  attemptScheduleUnit : String → String → Bool

/-- Source: reconciler.go lines 165–184, `doTask`.  Returns the error
result together with the metrics reported (an `EngineTask` per
recognized task, an `EngineTaskFailure` whenever `err ≠ nil`). -/
def doTask (t : task) (e : Engine) : Option String × List Metric :=
  if t.typ = taskTypeUnscheduleUnit then
    match e.unscheduleUnit t.JobName t.MachineID with
    | none => (none, [Metric.EngineTask t.typ])
    | some msg => (some msg, [Metric.EngineTask t.typ, Metric.EngineTaskFailure t.typ])
  else if t.typ = taskTypeAttemptScheduleUnit then
    let _ := e.attemptScheduleUnit t.JobName t.MachineID
    (none, [Metric.EngineTask t.typ])
  else
    (some ("unrecognized task type " ++ t.typ), [Metric.EngineTaskFailure t.typ])

/-- Source: reconciler.go lines 52–71, `Reconcile`.  On a snapshot error
it returns at once (no producer, no task execution, no success metric).
Otherwise the consumer drains the producer's channel, executing every
received task with `doTask` — without any stop poll of its own — and
the pass-success metric is reported at the end.  Returns the executed
tasks and the full pass trace (producer events, then per-task execution
events, then the success metric). -/
def Reconcile (sched : Scheduler) (e : Engine) (stopAt : Option Nat) :
    List task × List Ev :=
  match e.clusterState with
  | Except.error _ => ([], [])
  | Except.ok clust =>
    let out := calculateClusterTasks sched clust stopAt
    let tasks := emittedTasks out.trace
    let execTrace := tasks.flatMap fun t => Ev.exec t :: (doTask t e).2.map Ev.metric
    (tasks, out.trace ++ execTrace ++ [Ev.metric Metric.ReconcileSuccess])

/-- State transformer of one schedule-phase iteration on the snapshot;
mirror of the snapshot mutation in reconciler.go lines 141–158, used to
name the snapshot the scheduler is consulted with. -/
def schedStep (sched : Scheduler) (c : clusterState) (j : Job) : clusterState :=
  if j.Scheduled = true ∨ j.TargetState = JobStateInactive then c
  else
    match sched c j with
    | Except.error _ => c
    | Except.ok dec => c.schedule j.Name dec.machineID

/-- The unschedule task the unschedule phase hands off for a job, if
any (reconciler.go lines 92–135, without the stop signal). -/
def p1TaskOf (agents : String → Option AgentState) (j : Job) : Option task :=
  if j.Scheduled = true ∧ (decideJob agents j).1.1 = true then
    some ⟨taskTypeUnscheduleUnit, (decideJob agents j).1.2, j.Name, j.TargetMachineID⟩
  else none

/-- State transformer of one unschedule-phase iteration on the snapshot
(reconciler.go line 137, without the stop signal). -/
def p1Step (agents : String → Option AgentState) (c : clusterState) (j : Job) :
    clusterState :=
  if j.Scheduled = true ∧ (decideJob agents j).1.1 = true then c.unschedule j.Name else c

/-- Every hand-off event is immediately preceded by a stop poll that
returned "not stopped". -/
def handOffsGuarded : List Ev → Bool
  | [] => true
  | Ev.poll false :: Ev.handOff _ :: rest => handOffsGuarded rest
  | Ev.handOff _ :: _ => false
  | _ :: rest => handOffsGuarded rest

/-- No hand-off event occurs after a stop poll that observed the stop
signal. -/
def noHandOffAfterStop : List Ev → Bool
  | [] => true
  | Ev.poll true :: rest => rest.all fun e => match e with
      | Ev.handOff _ => false
      | _ => true
  | _ :: rest => noHandOffAfterStop rest

/-- Whether a trace contains a poll that observed the stop signal. -/
def hasStopPoll (tr : List Ev) : Bool := tr.any (· == Ev.poll true)

/-- `isMerge a b l`: `l` is an interleaving of `a` and `b` preserving
the order of each; used to quantify over the linearizations of the
producer flow and the consumer flow of one pass. -/
def isMerge : List Ev → List Ev → List Ev → Bool
  | [], [], [] => true
  | _, _, [] => false
  | a, b, c :: cs =>
    (match a with
     | x :: a2 => x == c && isMerge a2 b cs
     | [] => false)
    || (match b with
        | y :: b2 => y == c && isMerge a b2 cs
        | [] => false)

/-- Helper for `execsFollowHandOffs`: `seen` is the reversed prefix
already scanned. -/
def effAux : List Ev → List Ev → Bool
  | _, [] => true
  | seen, Ev.exec t :: rest =>
    decide (seen.count (Ev.handOff t) > seen.count (Ev.exec t))
      && effAux (Ev.exec t :: seen) rest
  | seen, e :: rest => effAux (e :: seen) rest

/-- Channel causality of a linearization: each execution of a task is
preceded by a hand-off of that task not yet matched by an execution. -/
def execsFollowHandOffs (l : List Ev) : Bool := effAux [] l

/-- No execution event occurs after a stop poll that observed the stop
signal. -/
def noExecAfterStopPoll : List Ev → Bool
  | [] => true
  | Ev.poll true :: rest => rest.all fun e => match e with
      | Ev.exec _ => false
      | _ => true
  | _ :: rest => noExecAfterStopPoll rest

/-- Concrete agent that can run anything; used for witness snapshots. -/
def agentYes : AgentState := ⟨fun _ => (true, "")⟩

/-- Concrete agent rejecting every job with the `JobReschedule` marker. -/
def agentResched : AgentState := ⟨fun _ => (false, JobReschedule)⟩

/-- Concrete agent rejecting every job with a non-marker reason. -/
def agentBusy : AgentState := ⟨fun _ => (false, "no free resources")⟩

/-- Concrete scheduler that never places a job. -/
def schedErr : Scheduler := fun _ _ => Except.error "unschedulable"

/-- Concrete scheduler that places every job on machine `m`. -/
def schedTo (m : String) : Scheduler := fun _ _ => Except.ok ⟨m⟩

/-- Witness snapshot: agent A, job J scheduled to A with target state
inactive (scenario 1 of §8). -/
def wClustInactive : clusterState :=
  ⟨[⟨"J", JobState.inactive, "A"⟩], [("A", agentYes)]⟩

/-- Witness snapshot: agents {A}, job J scheduled to the absent B
(scenario 2 of §8). -/
def wClustAway : clusterState :=
  ⟨[⟨"J", JobState.launched, "B"⟩], [("A", agentYes)]⟩

/-- Witness snapshot: job J scheduled to B, B rejects with the
`JobReschedule` marker (scenario 4 of §8). -/
def wClustResched : clusterState :=
  ⟨[⟨"J", JobState.launched, "B"⟩], [("A", agentYes), ("B", agentResched)]⟩

/-- Witness snapshot: job J unscheduled with target state launched
(scenario 3 of §8). -/
def wClustFree : clusterState :=
  ⟨[⟨"J", JobState.launched, ""⟩], [("A", agentYes), ("B", agentYes)]⟩

/-- Snapshot with two inactive scheduled jobs; with the stop signal
observable from the second poll on, the producer hands one task off and
then stops. -/
def c8clust : clusterState :=
  ⟨[⟨"j1", JobState.inactive, "A"⟩, ⟨"j2", JobState.inactive, "A"⟩], []⟩

/-- Witness engine whose snapshot build succeeds. -/
def wEngine : Engine := ⟨Except.ok wClustInactive, fun _ _ => none, fun _ _ => true⟩

/-- Witness engine whose snapshot build fails (store unavailable). -/
def wEngineDown : Engine := ⟨Except.error "registry down", fun _ _ => none, fun _ _ => true⟩

/-! ### Trace extraction lemmas -/

theorem emittedTasks_append (a b : List Ev) :
    emittedTasks (a ++ b) = emittedTasks a ++ emittedTasks b :=
  List.filterMap_append a b _

theorem emittedTasks_metric (m : Metric) (tr : List Ev) :
    emittedTasks (Ev.metric m :: tr) = emittedTasks tr := rfl

theorem emittedTasks_poll (b : Bool) (tr : List Ev) :
    emittedTasks (Ev.poll b :: tr) = emittedTasks tr := rfl

theorem emittedTasks_handOff (t : task) (tr : List Ev) :
    emittedTasks (Ev.handOff t :: tr) = t :: emittedTasks tr := rfl

theorem emittedTasks_metricMap (mets : List Metric) (tr : List Ev) :
    emittedTasks (mets.map Ev.metric ++ tr) = emittedTasks tr := by
  induction mets with
  | nil => rfl
  | cons m ms ih => simpa [emittedTasks_metric] using ih

theorem metricsOf_append (a b : List Ev) :
    metricsOf (a ++ b) = metricsOf a ++ metricsOf b :=
  List.filterMap_append a b _

theorem metricsOf_metric (m : Metric) (tr : List Ev) :
    metricsOf (Ev.metric m :: tr) = m :: metricsOf tr := rfl

theorem metricsOf_poll (b : Bool) (tr : List Ev) :
    metricsOf (Ev.poll b :: tr) = metricsOf tr := rfl

theorem metricsOf_handOff (t : task) (tr : List Ev) :
    metricsOf (Ev.handOff t :: tr) = metricsOf tr := rfl

theorem metricsOf_metricMap (mets : List Metric) (tr : List Ev) :
    metricsOf (mets.map Ev.metric ++ tr) = mets ++ metricsOf tr := by
  induction mets with
  | nil => rfl
  | cons m ms ih => simpa [metricsOf_metric] using ih

/-! ### Snapshot lemmas -/

theorem unschedule_sig (c : clusterState) (n : String) :
    (c.unschedule n).jobs.map (fun j => (j.Name, j.TargetState))
      = c.jobs.map (fun j => (j.Name, j.TargetState)) := by
  simp only [clusterState.unschedule, List.map_map]
  refine List.map_congr_left fun j _ => ?_
  by_cases h : j.Name = n <;> simp [h]

theorem schedule_sig (c : clusterState) (n m : String) :
    (c.schedule n m).jobs.map (fun j => (j.Name, j.TargetState))
      = c.jobs.map (fun j => (j.Name, j.TargetState)) := by
  simp only [clusterState.schedule, List.map_map]
  refine List.map_congr_left fun j _ => ?_
  by_cases h : j.Name = n <;> simp [h]

theorem unschedule_named (c : clusterState) (n : String) :
    ∀ j' ∈ (c.unschedule n).jobs, j'.Name = n → j'.TargetMachineID = "" := by
  intro j' hj' hn
  simp only [clusterState.unschedule, List.mem_map] at hj'
  obtain ⟨j0, hj0, hEq⟩ := hj'
  by_cases h : j0.Name = n
  · simp [h] at hEq; rw [← hEq]
  · simp [h] at hEq; rw [← hEq] at hn; exact absurd hn h

theorem schedule_named (c : clusterState) (n m : String) :
    ∀ j' ∈ (c.schedule n m).jobs, j'.Name = n → j'.TargetMachineID = m := by
  intro j' hj' hn
  simp only [clusterState.schedule, List.mem_map] at hj'
  obtain ⟨j0, hj0, hEq⟩ := hj'
  by_cases h : j0.Name = n
  · simp [h] at hEq; rw [← hEq]
  · simp [h] at hEq; rw [← hEq] at hn; exact absurd hn h

theorem namedProp_unschedule (c : clusterState) (nm n v : String)
    (hp : ∀ j' ∈ c.jobs, j'.Name = n → j'.TargetMachineID = v) (hne : nm ≠ n) :
    ∀ j' ∈ (c.unschedule nm).jobs, j'.Name = n → j'.TargetMachineID = v := by
  intro j' hj' hn
  simp only [clusterState.unschedule, List.mem_map] at hj'
  obtain ⟨j0, hj0, hEq⟩ := hj'
  by_cases h : j0.Name = nm
  · rw [← hEq] at hn; simp [h] at hn; exact absurd (h ▸ hn) hne
  · simp [h] at hEq; exact hp j' (hEq ▸ hj0) hn

theorem namedEmpty_unschedule (c : clusterState) (nm n : String)
    (hp : ∀ j' ∈ c.jobs, j'.Name = n → j'.TargetMachineID = "") :
    ∀ j' ∈ (c.unschedule nm).jobs, j'.Name = n → j'.TargetMachineID = "" := by
  intro j' hj' hn
  by_cases h : nm = n
  · exact unschedule_named c nm j' hj' (h ▸ hn)
  · exact namedProp_unschedule c nm n "" hp h j' hj' hn

theorem namedProp_schedule (c : clusterState) (nm m n v : String)
    (hp : ∀ j' ∈ c.jobs, j'.Name = n → j'.TargetMachineID = v) (hne : nm ≠ n) :
    ∀ j' ∈ (c.schedule nm m).jobs, j'.Name = n → j'.TargetMachineID = v := by
  intro j' hj' hn
  simp only [clusterState.schedule, List.mem_map] at hj'
  obtain ⟨j0, hj0, hEq⟩ := hj'
  by_cases h : j0.Name = nm
  · rw [← hEq] at hn; simp [h] at hn; exact absurd (h ▸ hn) hne
  · simp [h] at hEq; exact hp j' (hEq ▸ hj0) hn

/-! ### Branch equations for the phase functions -/

theorem unschedPhase_cons_skip (agents : String → Option AgentState) (stopAt : Option Nat)
    (j : Job) (rest : List Job) (c : clusterState) (p : Nat) (hjs : j.Scheduled = false) :
    unschedPhase agents stopAt (j :: rest) c p = unschedPhase agents stopAt rest c p := by
  simp [unschedPhase, hjs]

theorem unschedPhase_cons_keep (agents : String → Option AgentState) (stopAt : Option Nat)
    (j : Job) (rest : List Job) (c : clusterState) (p : Nat) (hjs : j.Scheduled = true)
    (hu : (decideJob agents j).1.1 = false) :
    unschedPhase agents stopAt (j :: rest) c p
      = ⟨(decideJob agents j).2.map Ev.metric ++ (unschedPhase agents stopAt rest c p).trace,
         (unschedPhase agents stopAt rest c p).clust,
         (unschedPhase agents stopAt rest c p).polls,
         (unschedPhase agents stopAt rest c p).cont⟩ := by
  simp [unschedPhase, hjs, hu]

theorem unschedPhase_cons_stop (agents : String → Option AgentState) (stopAt : Option Nat)
    (j : Job) (rest : List Job) (c : clusterState) (p : Nat) (hjs : j.Scheduled = true)
    (hu : (decideJob agents j).1.1 = true) (hst : stopObserved stopAt p = true) :
    unschedPhase agents stopAt (j :: rest) c p
      = ⟨(decideJob agents j).2.map Ev.metric ++ [Ev.poll true], c, p, false⟩ := by
  simp [unschedPhase, hjs, hu, hst]

theorem unschedPhase_cons_emit (agents : String → Option AgentState) (stopAt : Option Nat)
    (j : Job) (rest : List Job) (c : clusterState) (p : Nat) (hjs : j.Scheduled = true)
    (hu : (decideJob agents j).1.1 = true) (hst : stopObserved stopAt p = false) :
    unschedPhase agents stopAt (j :: rest) c p
      = ⟨(decideJob agents j).2.map Ev.metric
           ++ Ev.poll false
           :: Ev.handOff ⟨taskTypeUnscheduleUnit, (decideJob agents j).1.2, j.Name,
                j.TargetMachineID⟩
           :: (unschedPhase agents stopAt rest (c.unschedule j.Name) (p + 1)).trace,
         (unschedPhase agents stopAt rest (c.unschedule j.Name) (p + 1)).clust,
         (unschedPhase agents stopAt rest (c.unschedule j.Name) (p + 1)).polls,
         (unschedPhase agents stopAt rest (c.unschedule j.Name) (p + 1)).cont⟩ := by
  simp [unschedPhase, hjs, hu, hst]

theorem schedPhase_cons_skip (sched : Scheduler) (stopAt : Option Nat)
    (j : Job) (rest : List Job) (c : clusterState) (p : Nat)
    (hskip : j.Scheduled = true ∨ j.TargetState = JobStateInactive) :
    schedPhase sched stopAt (j :: rest) c p = schedPhase sched stopAt rest c p := by
  simp [schedPhase, hskip]

theorem schedPhase_cons_err (sched : Scheduler) (stopAt : Option Nat)
    (j : Job) (rest : List Job) (c : clusterState) (p : Nat) (msg : String)
    (hskip : ¬(j.Scheduled = true ∨ j.TargetState = JobStateInactive))
    (hsc : sched c j = Except.error msg) :
    schedPhase sched stopAt (j :: rest) c p
      = ⟨Ev.metric (Metric.ReconcileFailure FailureKind.ScheduleFailure)
           :: (schedPhase sched stopAt rest c p).trace,
         (schedPhase sched stopAt rest c p).clust⟩ := by
  simp [schedPhase, hskip, hsc]

theorem schedPhase_cons_stop (sched : Scheduler) (stopAt : Option Nat)
    (j : Job) (rest : List Job) (c : clusterState) (p : Nat) (dec : decision)
    (hskip : ¬(j.Scheduled = true ∨ j.TargetState = JobStateInactive))
    (hsc : sched c j = Except.ok dec) (hst : stopObserved stopAt p = true) :
    schedPhase sched stopAt (j :: rest) c p
      = ⟨[Ev.poll true, Ev.metric (Metric.ReconcileFailure FailureKind.ScheduleFailure)],
         c⟩ := by
  simp [schedPhase, hskip, hsc, hst]

theorem schedPhase_cons_emit (sched : Scheduler) (stopAt : Option Nat)
    (j : Job) (rest : List Job) (c : clusterState) (p : Nat) (dec : decision)
    (hskip : ¬(j.Scheduled = true ∨ j.TargetState = JobStateInactive))
    (hsc : sched c j = Except.ok dec) (hst : stopObserved stopAt p = false) :
    schedPhase sched stopAt (j :: rest) c p
      = ⟨Ev.poll false
           :: Ev.handOff ⟨taskTypeAttemptScheduleUnit,
                "target state " ++ j.TargetState.toString ++ " and unit not scheduled",
                j.Name, dec.machineID⟩
           :: (schedPhase sched stopAt rest (c.schedule j.Name dec.machineID) (p + 1)).trace,
         (schedPhase sched stopAt rest (c.schedule j.Name dec.machineID) (p + 1)).clust⟩ := by
  simp [schedPhase, hskip, hsc, hst]

/-! ### Unschedule-phase characterization -/

theorem unschedPhase_cont_none (agents : String → Option AgentState)
    (js : List Job) (c : clusterState) (p : Nat) :
    (unschedPhase agents none js c p).cont = true := by
  induction js generalizing c p with
  | nil => rfl
  | cons j rest ih =>
    cases hjs : j.Scheduled with
    | false => simpa [unschedPhase, hjs] using ih c p
    | true =>
      cases hu : (decideJob agents j).1.1 with
      | false => simpa [unschedPhase, hjs, hu] using ih c p
      | true =>
        simpa [unschedPhase, hjs, hu, stopObserved] using ih (c.unschedule j.Name) (p + 1)

theorem unschedPhase_tasks_none (agents : String → Option AgentState)
    (js : List Job) (c : clusterState) (p : Nat) :
    emittedTasks (unschedPhase agents none js c p).trace
      = js.filterMap (p1TaskOf agents) := by
  induction js generalizing c p with
  | nil => rfl
  | cons j rest ih =>
    cases hjs : j.Scheduled with
    | false => simpa [unschedPhase, hjs, List.filterMap_cons, p1TaskOf] using ih c p
    | true =>
      cases hu : (decideJob agents j).1.1 with
      | false =>
        simpa [unschedPhase, hjs, hu, List.filterMap_cons, p1TaskOf,
               emittedTasks_metricMap] using ih c p
      | true =>
        simpa [unschedPhase, hjs, hu, stopObserved, List.filterMap_cons, p1TaskOf,
               emittedTasks_metricMap, emittedTasks_poll, emittedTasks_handOff]
          using ih (c.unschedule j.Name) (p + 1)

theorem unschedPhase_clust_none (agents : String → Option AgentState)
    (js : List Job) (c : clusterState) (p : Nat) :
    (unschedPhase agents none js c p).clust = js.foldl (p1Step agents) c := by
  induction js generalizing c p with
  | nil => rfl
  | cons j rest ih =>
    cases hjs : j.Scheduled with
    | false => simpa [unschedPhase, hjs, p1Step] using ih c p
    | true =>
      cases hu : (decideJob agents j).1.1 with
      | false => simpa [unschedPhase, hjs, hu, p1Step] using ih c p
      | true =>
        simpa [unschedPhase, hjs, hu, stopObserved, p1Step]
          using ih (c.unschedule j.Name) (p + 1)

theorem unschedPhase_metrics_none (agents : String → Option AgentState)
    (js : List Job) (c : clusterState) (p : Nat) :
    metricsOf (unschedPhase agents none js c p).trace
      = js.flatMap (fun j => if j.Scheduled = true then (decideJob agents j).2 else []) := by
  induction js generalizing c p with
  | nil => rfl
  | cons j rest ih =>
    cases hjs : j.Scheduled with
    | false => simpa [unschedPhase, hjs] using ih c p
    | true =>
      cases hu : (decideJob agents j).1.1 with
      | false => simpa [unschedPhase, hjs, hu, metricsOf_metricMap] using ih c p
      | true =>
        simpa [unschedPhase, hjs, hu, stopObserved, metricsOf_metricMap,
               metricsOf_poll, metricsOf_handOff]
          using ih (c.unschedule j.Name) (p + 1)

theorem unschedPhase_task_typ (agents : String → Option AgentState) (stopAt : Option Nat)
    (js : List Job) (c : clusterState) (p : Nat) :
    ∀ t ∈ emittedTasks (unschedPhase agents stopAt js c p).trace,
      t.typ = taskTypeUnscheduleUnit := by
  induction js generalizing c p with
  | nil => intro t ht; simp [unschedPhase, emittedTasks] at ht
  | cons j rest ih =>
    cases hjs : j.Scheduled with
    | false => simpa [unschedPhase, hjs] using ih c p
    | true =>
      cases hu : (decideJob agents j).1.1 with
      | false => simpa [unschedPhase, hjs, hu, emittedTasks_metricMap] using ih c p
      | true =>
        cases hst : stopObserved stopAt p with
        | true =>
          intro t ht
          simp [unschedPhase, hjs, hu, hst, emittedTasks_metricMap, emittedTasks,
                List.filterMap_cons] at ht
        | false =>
          intro t ht
          simp [unschedPhase, hjs, hu, hst, emittedTasks_metricMap, emittedTasks_poll,
                emittedTasks_handOff] at ht
          rcases ht with rfl | ht
          · rfl
          · exact ih (c.unschedule j.Name) (p + 1) t ht

theorem unschedPhase_task_names (agents : String → Option AgentState) (stopAt : Option Nat)
    (js : List Job) (c : clusterState) (p : Nat) :
    List.Sublist ((emittedTasks (unschedPhase agents stopAt js c p).trace).map task.JobName)
      (js.map Job.Name) := by
  induction js generalizing c p with
  | nil => simp [unschedPhase, emittedTasks]
  | cons j rest ih =>
    cases hjs : j.Scheduled with
    | false => simpa [unschedPhase, hjs] using (ih c p).cons j.Name
    | true =>
      cases hu : (decideJob agents j).1.1 with
      | false =>
        simpa [unschedPhase, hjs, hu, emittedTasks_metricMap] using (ih c p).cons j.Name
      | true =>
        cases hst : stopObserved stopAt p with
        | true =>
          have h0 : (unschedPhase agents stopAt (j :: rest) c p).trace
              = (decideJob agents j).2.map Ev.metric ++ [Ev.poll true] := by
            simp [unschedPhase, hjs, hu, hst]
          rw [h0, emittedTasks_metricMap]
          simp [emittedTasks]
        | false =>
          simpa [unschedPhase, hjs, hu, hst, emittedTasks_metricMap, emittedTasks_poll,
                 emittedTasks_handOff]
            using (ih (c.unschedule j.Name) (p + 1)).cons₂ j.Name

theorem unschedPhase_sig (agents : String → Option AgentState) (stopAt : Option Nat)
    (js : List Job) (c : clusterState) (p : Nat) :
    (unschedPhase agents stopAt js c p).clust.jobs.map (fun j => (j.Name, j.TargetState))
      = c.jobs.map (fun j => (j.Name, j.TargetState)) := by
  induction js generalizing c p with
  | nil => rfl
  | cons j rest ih =>
    cases hjs : j.Scheduled with
    | false => simpa [unschedPhase, hjs] using ih c p
    | true =>
      cases hu : (decideJob agents j).1.1 with
      | false => simpa [unschedPhase, hjs, hu] using ih c p
      | true =>
        cases hst : stopObserved stopAt p with
        | true => simp [unschedPhase, hjs, hu, hst]
        | false =>
          have := ih (c.unschedule j.Name) (p + 1)
          rw [unschedule_sig] at this
          simpa [unschedPhase, hjs, hu, hst] using this

/-! ### Schedule-phase characterization -/

theorem schedPhase_polls_none (sched : Scheduler) (js : List Job) (c : clusterState)
    (p q : Nat) : schedPhase sched none js c p = schedPhase sched none js c q := by
  induction js generalizing c p q with
  | nil => rfl
  | cons j rest ih =>
    by_cases hskip : j.Scheduled = true ∨ j.TargetState = JobStateInactive
    · simpa [schedPhase, hskip] using ih c p q
    · cases hsc : sched c j with
      | error msg =>
        have h2 := ih c p q
        simp [schedPhase, hskip, hsc, h2]
      | ok dec =>
        have h2 := ih (c.schedule j.Name dec.machineID) (p + 1) (q + 1)
        simp [schedPhase, hskip, hsc, stopObserved, h2]

theorem schedPhase_clust_none (sched : Scheduler) (js : List Job) (c : clusterState)
    (p : Nat) : (schedPhase sched none js c p).clust = js.foldl (schedStep sched) c := by
  induction js generalizing c p with
  | nil => rfl
  | cons j rest ih =>
    by_cases hskip : j.Scheduled = true ∨ j.TargetState = JobStateInactive
    · simpa [schedPhase, hskip, schedStep] using ih c p
    · cases hsc : sched c j with
      | error msg => simpa [schedPhase, hskip, hsc, schedStep] using ih c p
      | ok dec =>
        simpa [schedPhase, hskip, hsc, stopObserved, schedStep]
          using ih (c.schedule j.Name dec.machineID) (p + 1)

theorem schedPhase_trace_append_none (sched : Scheduler) (a b : List Job)
    (c : clusterState) (p : Nat) :
    (schedPhase sched none (a ++ b) c p).trace
      = (schedPhase sched none a c p).trace
        ++ (schedPhase sched none b (a.foldl (schedStep sched) c) p).trace := by
  induction a generalizing c p with
  | nil => simp [schedPhase]
  | cons j rest ih =>
    by_cases hskip : j.Scheduled = true ∨ j.TargetState = JobStateInactive
    · simpa [schedPhase, hskip, schedStep] using ih c p
    · cases hsc : sched c j with
      | error msg => simpa [schedPhase, hskip, hsc, schedStep] using ih c p
      | ok dec =>
        have := ih (c.schedule j.Name dec.machineID) (p + 1)
        rw [schedPhase_polls_none sched b _ (p + 1) p] at this
        simpa [schedPhase, hskip, hsc, stopObserved, schedStep] using this

theorem schedPhase_task_typ (sched : Scheduler) (stopAt : Option Nat)
    (js : List Job) (c : clusterState) (p : Nat) :
    ∀ t ∈ emittedTasks (schedPhase sched stopAt js c p).trace,
      t.typ = taskTypeAttemptScheduleUnit := by
  induction js generalizing c p with
  | nil => intro t ht; simp [schedPhase, emittedTasks] at ht
  | cons j rest ih =>
    by_cases hskip : j.Scheduled = true ∨ j.TargetState = JobStateInactive
    · simpa [schedPhase, hskip] using ih c p
    · cases hsc : sched c j with
      | error msg => simpa [schedPhase, hskip, hsc, emittedTasks_metric] using ih c p
      | ok dec =>
        cases hst : stopObserved stopAt p with
        | true =>
          intro t ht
          simp [schedPhase, hskip, hsc, hst, emittedTasks] at ht
        | false =>
          intro t ht
          simp [schedPhase, hskip, hsc, hst, emittedTasks_poll, emittedTasks_handOff] at ht
          rcases ht with rfl | ht
          · rfl
          · exact ih (c.schedule j.Name dec.machineID) (p + 1) t ht

theorem schedPhase_task_elig (sched : Scheduler) (stopAt : Option Nat)
    (js : List Job) (c : clusterState) (p : Nat) :
    ∀ t ∈ emittedTasks (schedPhase sched stopAt js c p).trace,
      ∃ jj ∈ js, jj.Scheduled = false ∧ jj.TargetState ≠ JobStateInactive
        ∧ t.JobName = jj.Name := by
  induction js generalizing c p with
  | nil => intro t ht; simp [schedPhase, emittedTasks] at ht
  | cons j rest ih =>
    by_cases hskip : j.Scheduled = true ∨ j.TargetState = JobStateInactive
    · intro t ht
      simp only [schedPhase, hskip, if_true, reduceIte] at ht
      obtain ⟨jj, hjj, hf⟩ := ih c p t (by simpa [hskip] using ht)
      exact ⟨jj, List.mem_cons_of_mem j hjj, hf⟩
    · push_neg at hskip
      obtain ⟨hns0, hti⟩ := hskip
      have hns : j.Scheduled = false := Bool.eq_false_iff.mpr hns0
      cases hsc : sched c j with
      | error msg =>
        intro t ht
        rw [show (schedPhase sched stopAt (j :: rest) c p).trace
              = Ev.metric (Metric.ReconcileFailure FailureKind.ScheduleFailure)
                :: (schedPhase sched stopAt rest c p).trace by
            simp [schedPhase, hns, hti, hsc]] at ht
        rw [emittedTasks_metric] at ht
        obtain ⟨jj, hjj, hf⟩ := ih c p t ht
        exact ⟨jj, List.mem_cons_of_mem j hjj, hf⟩
      | ok dec =>
        cases hst : stopObserved stopAt p with
        | true =>
          intro t ht
          simp [schedPhase, hns, hti, hsc, hst, emittedTasks] at ht
        | false =>
          intro t ht
          rw [show (schedPhase sched stopAt (j :: rest) c p).trace
                = Ev.poll false
                  :: Ev.handOff ⟨taskTypeAttemptScheduleUnit,
                      "target state " ++ j.TargetState.toString ++ " and unit not scheduled",
                      j.Name, dec.machineID⟩
                  :: (schedPhase sched stopAt rest (c.schedule j.Name dec.machineID) (p + 1)).trace by
              simp [schedPhase, hns, hti, hsc, hst]] at ht
          rw [emittedTasks_poll, emittedTasks_handOff] at ht
          rcases List.mem_cons.mp ht with rfl | ht
          · exact ⟨j, List.mem_cons_self j rest, hns, hti, rfl⟩
          · obtain ⟨jj, hjj, hf⟩ := ih (c.schedule j.Name dec.machineID) (p + 1) t ht
            exact ⟨jj, List.mem_cons_of_mem j hjj, hf⟩

theorem schedPhase_task_names (sched : Scheduler) (stopAt : Option Nat)
    (js : List Job) (c : clusterState) (p : Nat) :
    List.Sublist ((emittedTasks (schedPhase sched stopAt js c p).trace).map task.JobName)
      (js.map Job.Name) := by
  induction js generalizing c p with
  | nil => simp [schedPhase, emittedTasks]
  | cons j rest ih =>
    by_cases hskip : j.Scheduled = true ∨ j.TargetState = JobStateInactive
    · simpa [schedPhase, hskip] using (ih c p).cons j.Name
    · cases hsc : sched c j with
      | error msg =>
        simpa [schedPhase, hskip, hsc, emittedTasks_metric] using (ih c p).cons j.Name
      | ok dec =>
        cases hst : stopObserved stopAt p with
        | true => simp [schedPhase, hskip, hsc, hst, emittedTasks]
        | false =>
          simpa [schedPhase, hskip, hsc, hst, emittedTasks_poll, emittedTasks_handOff]
            using (ih (c.schedule j.Name dec.machineID) (p + 1)).cons₂ j.Name

theorem schedPhase_metric_kinds (sched : Scheduler) (stopAt : Option Nat)
    (js : List Job) (c : clusterState) (p : Nat) :
    ∀ m ∈ metricsOf (schedPhase sched stopAt js c p).trace,
      m = Metric.ReconcileFailure FailureKind.ScheduleFailure := by
  induction js generalizing c p with
  | nil => intro m hm; simp [schedPhase, metricsOf] at hm
  | cons j rest ih =>
    by_cases hskip : j.Scheduled = true ∨ j.TargetState = JobStateInactive
    · simpa [schedPhase, hskip] using ih c p
    · cases hsc : sched c j with
      | error msg =>
        intro m hm
        simp [schedPhase, hskip, hsc, metricsOf_metric] at hm
        rcases hm with rfl | hm
        · rfl
        · exact ih c p m hm
      | ok dec =>
        cases hst : stopObserved stopAt p with
        | true =>
          intro m hm
          simp [schedPhase, hskip, hsc, hst, metricsOf] at hm
          exact hm
        | false =>
          simpa [schedPhase, hskip, hsc, hst, metricsOf_poll, metricsOf_handOff]
            using ih (c.schedule j.Name dec.machineID) (p + 1)

/-! ### Preservation of named-job properties across phases -/

theorem namedProp_schedStep (sched : Scheduler) (c : clusterState) (jj : Job)
    (n v : String)
    (hp : ∀ j' ∈ c.jobs, j'.Name = n → j'.TargetMachineID = v)
    (hcond : jj.Name = n → (jj.Scheduled = true ∨ jj.TargetState = JobStateInactive)) :
    ∀ j' ∈ (schedStep sched c jj).jobs, j'.Name = n → j'.TargetMachineID = v := by
  by_cases hskip : jj.Scheduled = true ∨ jj.TargetState = JobStateInactive
  · simpa [schedStep, hskip] using hp
  · have hne : jj.Name ≠ n := fun h => hskip (hcond h)
    cases hsc : sched c jj with
    | error msg => simpa [schedStep, hskip, hsc] using hp
    | ok dec =>
      simpa [schedStep, hskip, hsc] using namedProp_schedule c jj.Name dec.machineID n v hp hne

theorem namedProp_schedFoldl (sched : Scheduler) (js : List Job) (c : clusterState)
    (n v : String)
    (hp : ∀ j' ∈ c.jobs, j'.Name = n → j'.TargetMachineID = v)
    (hskip : ∀ jj ∈ js, jj.Name = n → (jj.Scheduled = true ∨ jj.TargetState = JobStateInactive)) :
    ∀ j' ∈ (js.foldl (schedStep sched) c).jobs, j'.Name = n → j'.TargetMachineID = v := by
  induction js generalizing c with
  | nil => simpa using hp
  | cons jj rest ih =>
    simp only [List.foldl_cons]
    exact ih (schedStep sched c jj)
      (namedProp_schedStep sched c jj n v hp (hskip jj (List.mem_cons_self jj rest)))
      (fun x hx => hskip x (List.mem_cons_of_mem jj hx))

theorem namedEmpty_p1Step (agents : String → Option AgentState) (c : clusterState)
    (jj : Job) (n : String)
    (hp : ∀ j' ∈ c.jobs, j'.Name = n → j'.TargetMachineID = "") :
    ∀ j' ∈ (p1Step agents c jj).jobs, j'.Name = n → j'.TargetMachineID = "" := by
  by_cases hcond : jj.Scheduled = true ∧ (decideJob agents jj).1.1 = true
  · simpa [p1Step, hcond] using namedEmpty_unschedule c jj.Name n hp
  · simpa [p1Step, hcond] using hp

theorem namedEmpty_p1Foldl (agents : String → Option AgentState) (js : List Job)
    (c : clusterState) (n : String)
    (hp : ∀ j' ∈ c.jobs, j'.Name = n → j'.TargetMachineID = "") :
    ∀ j' ∈ (js.foldl (p1Step agents) c).jobs, j'.Name = n → j'.TargetMachineID = "" := by
  induction js generalizing c with
  | nil => simpa using hp
  | cons jj rest ih =>
    simp only [List.foldl_cons]
    exact ih (p1Step agents c jj) (namedEmpty_p1Step agents c jj n hp)

theorem p1Foldl_clears (agents : String → Option AgentState) (pre post : List Job)
    (j : Job) (c : clusterState)
    (hcond : j.Scheduled = true ∧ (decideJob agents j).1.1 = true) :
    ∀ j' ∈ ((pre ++ j :: post).foldl (p1Step agents) c).jobs,
      j'.Name = j.Name → j'.TargetMachineID = "" := by
  rw [List.foldl_append, List.foldl_cons]
  have hstep : p1Step agents (pre.foldl (p1Step agents) c) j
      = (pre.foldl (p1Step agents) c).unschedule j.Name := by
    simp [p1Step, hcond]
  rw [hstep]
  exact namedEmpty_p1Foldl agents post _ j.Name
    (unschedule_named (pre.foldl (p1Step agents) c) j.Name)

/-! ### Stop-signal trace predicates -/

theorem noHandOffAfterStop_metric (m : Metric) (tr : List Ev) :
    noHandOffAfterStop (Ev.metric m :: tr) = noHandOffAfterStop tr := rfl

theorem noHandOffAfterStop_pollFalse (tr : List Ev) :
    noHandOffAfterStop (Ev.poll false :: tr) = noHandOffAfterStop tr := rfl

theorem noHandOffAfterStop_handOff (t : task) (tr : List Ev) :
    noHandOffAfterStop (Ev.handOff t :: tr) = noHandOffAfterStop tr := rfl

theorem noHandOffAfterStop_metricMap (mets : List Metric) (tr : List Ev) :
    noHandOffAfterStop (mets.map Ev.metric ++ tr) = noHandOffAfterStop tr := by
  induction mets with
  | nil => rfl
  | cons m ms ih => simpa [noHandOffAfterStop_metric] using ih

theorem handOffsGuarded_metric (m : Metric) (tr : List Ev) :
    handOffsGuarded (Ev.metric m :: tr) = handOffsGuarded tr := rfl

theorem handOffsGuarded_metricMap (mets : List Metric) (tr : List Ev) :
    handOffsGuarded (mets.map Ev.metric ++ tr) = handOffsGuarded tr := by
  induction mets with
  | nil => rfl
  | cons m ms ih => simpa [handOffsGuarded_metric] using ih

theorem handOffsGuarded_pair (t : task) (tr : List Ev) :
    handOffsGuarded (Ev.poll false :: Ev.handOff t :: tr) = handOffsGuarded tr := rfl

theorem handOffsGuarded_pollTrue (tr : List Ev) :
    handOffsGuarded (Ev.poll true :: tr) = handOffsGuarded tr := by
  cases tr with
  | nil => rfl
  | cons e rest => cases e <;> rfl

theorem hasStopPoll_cons_metric (m : Metric) (tr : List Ev) :
    hasStopPoll (Ev.metric m :: tr) = hasStopPoll tr := rfl

theorem hasStopPoll_cons_pollFalse (tr : List Ev) :
    hasStopPoll (Ev.poll false :: tr) = hasStopPoll tr := rfl

theorem hasStopPoll_cons_handOff (t : task) (tr : List Ev) :
    hasStopPoll (Ev.handOff t :: tr) = hasStopPoll tr := rfl

theorem hasStopPoll_metricMap (mets : List Metric) (tr : List Ev) :
    hasStopPoll (mets.map Ev.metric ++ tr) = hasStopPoll tr := by
  induction mets with
  | nil => rfl
  | cons m ms ih =>
    rw [List.map_cons, List.cons_append, hasStopPoll_cons_metric]
    exact ih

theorem noHandOffAfterStop_append_clean (a b : List Ev) (ha : hasStopPoll a = false) :
    noHandOffAfterStop (a ++ b) = noHandOffAfterStop b := by
  induction a with
  | nil => rfl
  | cons e rest ih =>
    have h1 : (e == Ev.poll true) = false ∧ hasStopPoll rest = false := by
      simpa [hasStopPoll] using ha
    have hrec := ih h1.2
    cases e with
    | poll b0 =>
      cases b0 with
      | false => simpa [noHandOffAfterStop_pollFalse] using hrec
      | true => simp at h1
    | handOff t => simpa [noHandOffAfterStop_handOff] using hrec
    | exec t => simpa [noHandOffAfterStop] using hrec
    | metric m => simpa [noHandOffAfterStop_metric] using hrec

theorem unschedPhase_noStopPoll (agents : String → Option AgentState) (stopAt : Option Nat)
    (js : List Job) (c : clusterState) (p : Nat)
    (hc : (unschedPhase agents stopAt js c p).cont = true) :
    hasStopPoll (unschedPhase agents stopAt js c p).trace = false := by
  induction js generalizing c p with
  | nil => rfl
  | cons j rest ih =>
    cases hjs : j.Scheduled with
    | false =>
      rw [unschedPhase_cons_skip agents stopAt j rest c p hjs] at hc ⊢
      exact ih c p hc
    | true =>
      cases hu : (decideJob agents j).1.1 with
      | false =>
        have hc' : (unschedPhase agents stopAt rest c p).cont = true := by
          rw [unschedPhase_cons_keep agents stopAt j rest c p hjs hu] at hc
          exact hc
        rw [unschedPhase_cons_keep agents stopAt j rest c p hjs hu]
        show hasStopPoll ((decideJob agents j).2.map Ev.metric
          ++ (unschedPhase agents stopAt rest c p).trace) = false
        rw [hasStopPoll_metricMap]
        exact ih c p hc'
      | true =>
        cases hst : stopObserved stopAt p with
        | true =>
          rw [unschedPhase_cons_stop agents stopAt j rest c p hjs hu hst] at hc
          exact absurd hc (by simp)
        | false =>
          have hc' : (unschedPhase agents stopAt rest (c.unschedule j.Name) (p + 1)).cont
              = true := by
            rw [unschedPhase_cons_emit agents stopAt j rest c p hjs hu hst] at hc
            exact hc
          rw [unschedPhase_cons_emit agents stopAt j rest c p hjs hu hst]
          show hasStopPoll ((decideJob agents j).2.map Ev.metric
            ++ Ev.poll false
            :: Ev.handOff ⟨taskTypeUnscheduleUnit, (decideJob agents j).1.2, j.Name,
                 j.TargetMachineID⟩
            :: (unschedPhase agents stopAt rest (c.unschedule j.Name) (p + 1)).trace) = false
          rw [hasStopPoll_metricMap, hasStopPoll_cons_pollFalse, hasStopPoll_cons_handOff]
          exact ih (c.unschedule j.Name) (p + 1) hc'

theorem unschedPhase_noHandOffAfterStop (agents : String → Option AgentState)
    (stopAt : Option Nat) (js : List Job) (c : clusterState) (p : Nat) :
    noHandOffAfterStop (unschedPhase agents stopAt js c p).trace = true := by
  induction js generalizing c p with
  | nil => rfl
  | cons j rest ih =>
    cases hjs : j.Scheduled with
    | false =>
      rw [unschedPhase_cons_skip agents stopAt j rest c p hjs]
      exact ih c p
    | true =>
      cases hu : (decideJob agents j).1.1 with
      | false =>
        rw [unschedPhase_cons_keep agents stopAt j rest c p hjs hu]
        show noHandOffAfterStop ((decideJob agents j).2.map Ev.metric
          ++ (unschedPhase agents stopAt rest c p).trace) = true
        rw [noHandOffAfterStop_metricMap]
        exact ih c p
      | true =>
        cases hst : stopObserved stopAt p with
        | true =>
          rw [unschedPhase_cons_stop agents stopAt j rest c p hjs hu hst]
          show noHandOffAfterStop ((decideJob agents j).2.map Ev.metric
            ++ [Ev.poll true]) = true
          rw [noHandOffAfterStop_metricMap]
          rfl
        | false =>
          rw [unschedPhase_cons_emit agents stopAt j rest c p hjs hu hst]
          show noHandOffAfterStop ((decideJob agents j).2.map Ev.metric
            ++ Ev.poll false
            :: Ev.handOff ⟨taskTypeUnscheduleUnit, (decideJob agents j).1.2, j.Name,
                 j.TargetMachineID⟩
            :: (unschedPhase agents stopAt rest (c.unschedule j.Name) (p + 1)).trace) = true
          rw [noHandOffAfterStop_metricMap, noHandOffAfterStop_pollFalse,
            noHandOffAfterStop_handOff]
          exact ih (c.unschedule j.Name) (p + 1)

theorem schedPhase_noHandOffAfterStop (sched : Scheduler) (stopAt : Option Nat)
    (js : List Job) (c : clusterState) (p : Nat) :
    noHandOffAfterStop (schedPhase sched stopAt js c p).trace = true := by
  induction js generalizing c p with
  | nil => rfl
  | cons j rest ih =>
    by_cases hskip : j.Scheduled = true ∨ j.TargetState = JobStateInactive
    · rw [schedPhase_cons_skip sched stopAt j rest c p hskip]
      exact ih c p
    · cases hsc : sched c j with
      | error msg =>
        rw [schedPhase_cons_err sched stopAt j rest c p msg hskip hsc]
        show noHandOffAfterStop (Ev.metric (Metric.ReconcileFailure FailureKind.ScheduleFailure)
          :: (schedPhase sched stopAt rest c p).trace) = true
        rw [noHandOffAfterStop_metric]
        exact ih c p
      | ok dec =>
        cases hst : stopObserved stopAt p with
        | true =>
          rw [schedPhase_cons_stop sched stopAt j rest c p dec hskip hsc hst]
          rfl
        | false =>
          rw [schedPhase_cons_emit sched stopAt j rest c p dec hskip hsc hst]
          show noHandOffAfterStop (Ev.poll false
            :: Ev.handOff ⟨taskTypeAttemptScheduleUnit,
                "target state " ++ j.TargetState.toString ++ " and unit not scheduled",
                j.Name, dec.machineID⟩
            :: (schedPhase sched stopAt rest (c.schedule j.Name dec.machineID) (p + 1)).trace)
            = true
          rw [noHandOffAfterStop_pollFalse, noHandOffAfterStop_handOff]
          exact ih (c.schedule j.Name dec.machineID) (p + 1)

theorem unschedPhase_guarded_append (agents : String → Option AgentState)
    (stopAt : Option Nat) (js : List Job) (c : clusterState) (p : Nat)
    (tr2 : List Ev) (h2 : handOffsGuarded tr2 = true) :
    handOffsGuarded ((unschedPhase agents stopAt js c p).trace ++ tr2) = true := by
  induction js generalizing c p with
  | nil => simpa using h2
  | cons j rest ih =>
    cases hjs : j.Scheduled with
    | false =>
      rw [unschedPhase_cons_skip agents stopAt j rest c p hjs]
      exact ih c p
    | true =>
      cases hu : (decideJob agents j).1.1 with
      | false =>
        rw [unschedPhase_cons_keep agents stopAt j rest c p hjs hu]
        show handOffsGuarded (((decideJob agents j).2.map Ev.metric
          ++ (unschedPhase agents stopAt rest c p).trace) ++ tr2) = true
        rw [List.append_assoc, handOffsGuarded_metricMap]
        exact ih c p
      | true =>
        cases hst : stopObserved stopAt p with
        | true =>
          rw [unschedPhase_cons_stop agents stopAt j rest c p hjs hu hst]
          show handOffsGuarded (((decideJob agents j).2.map Ev.metric
            ++ [Ev.poll true]) ++ tr2) = true
          rw [List.append_assoc, handOffsGuarded_metricMap]
          show handOffsGuarded (Ev.poll true :: tr2) = true
          rw [handOffsGuarded_pollTrue]
          exact h2
        | false =>
          rw [unschedPhase_cons_emit agents stopAt j rest c p hjs hu hst]
          show handOffsGuarded (((decideJob agents j).2.map Ev.metric
            ++ Ev.poll false
            :: Ev.handOff ⟨taskTypeUnscheduleUnit, (decideJob agents j).1.2, j.Name,
                 j.TargetMachineID⟩
            :: (unschedPhase agents stopAt rest (c.unschedule j.Name) (p + 1)).trace) ++ tr2)
            = true
          rw [List.append_assoc, handOffsGuarded_metricMap, List.cons_append,
            List.cons_append, handOffsGuarded_pair]
          exact ih (c.unschedule j.Name) (p + 1)

theorem schedPhase_guarded (sched : Scheduler) (stopAt : Option Nat)
    (js : List Job) (c : clusterState) (p : Nat) :
    handOffsGuarded (schedPhase sched stopAt js c p).trace = true := by
  induction js generalizing c p with
  | nil => rfl
  | cons j rest ih =>
    by_cases hskip : j.Scheduled = true ∨ j.TargetState = JobStateInactive
    · rw [schedPhase_cons_skip sched stopAt j rest c p hskip]
      exact ih c p
    · cases hsc : sched c j with
      | error msg =>
        rw [schedPhase_cons_err sched stopAt j rest c p msg hskip hsc]
        show handOffsGuarded (Ev.metric (Metric.ReconcileFailure FailureKind.ScheduleFailure)
          :: (schedPhase sched stopAt rest c p).trace) = true
        rw [handOffsGuarded_metric]
        exact ih c p
      | ok dec =>
        cases hst : stopObserved stopAt p with
        | true =>
          rw [schedPhase_cons_stop sched stopAt j rest c p dec hskip hsc hst]
          rfl
        | false =>
          rw [schedPhase_cons_emit sched stopAt j rest c p dec hskip hsc hst]
          show handOffsGuarded (Ev.poll false
            :: Ev.handOff ⟨taskTypeAttemptScheduleUnit,
                "target state " ++ j.TargetState.toString ++ " and unit not scheduled",
                j.Name, dec.machineID⟩
            :: (schedPhase sched stopAt rest (c.schedule j.Name dec.machineID) (p + 1)).trace)
            = true
          rw [handOffsGuarded_pair]
          exact ih (c.schedule j.Name dec.machineID) (p + 1)

theorem pass_handOffsGuarded (sched : Scheduler) (clust : clusterState)
    (stopAt : Option Nat) :
    handOffsGuarded (calculateClusterTasks sched clust stopAt).trace = true := by
  unfold calculateClusterTasks
  cases hc : (unschedPhase clust.agents stopAt clust.jobs clust 0).cont with
  | true =>
    simp only [hc, reduceIte]
    exact unschedPhase_guarded_append clust.agents stopAt clust.jobs clust 0 _
      (schedPhase_guarded sched stopAt _ _ _)
  | false =>
    simp only [hc, Bool.false_eq_true, reduceIte]
    have := unschedPhase_guarded_append clust.agents stopAt clust.jobs clust 0 [] rfl
    simpa using this

theorem pass_noHandOffAfterStop (sched : Scheduler) (clust : clusterState)
    (stopAt : Option Nat) :
    noHandOffAfterStop (calculateClusterTasks sched clust stopAt).trace = true := by
  unfold calculateClusterTasks
  cases hc : (unschedPhase clust.agents stopAt clust.jobs clust 0).cont with
  | true =>
    simp only [hc, reduceIte]
    rw [noHandOffAfterStop_append_clean _ _
      (unschedPhase_noStopPoll clust.agents stopAt clust.jobs clust 0 hc)]
    exact schedPhase_noHandOffAfterStop sched stopAt _ _ _
  | false =>
    simp only [hc, Bool.false_eq_true, reduceIte]
    exact unschedPhase_noHandOffAfterStop clust.agents stopAt clust.jobs clust 0

/-! ### Name and uniqueness utilities -/

theorem p1TaskOf_props (agents : String → Option AgentState) (j : Job) (t : task)
    (h : p1TaskOf agents j = some t) :
    t = ⟨taskTypeUnscheduleUnit, (decideJob agents j).1.2, j.Name, j.TargetMachineID⟩
      ∧ j.Scheduled = true ∧ (decideJob agents j).1.1 = true := by
  by_cases hc : j.Scheduled = true ∧ (decideJob agents j).1.1 = true
  · refine ⟨?_, hc⟩
    simp [p1TaskOf, hc] at h
    exact h.symm
  · simp [p1TaskOf, hc] at h

theorem p1TaskOf_some (agents : String → Option AgentState) (j : Job)
    (hjs : j.Scheduled = true) (hu : (decideJob agents j).1.1 = true) :
    p1TaskOf agents j
      = some ⟨taskTypeUnscheduleUnit, (decideJob agents j).1.2, j.Name, j.TargetMachineID⟩ := by
  simp [p1TaskOf, hjs, hu]

theorem p1Tasks_name_mem (agents : String → Option AgentState) (js : List Job) (t : task)
    (ht : t ∈ js.filterMap (p1TaskOf agents)) : t.JobName ∈ js.map Job.Name := by
  obtain ⟨j, hj, hsome⟩ := List.mem_filterMap.mp ht
  obtain ⟨rfl, -, -⟩ := p1TaskOf_props agents j t hsome
  exact List.mem_map_of_mem Job.Name hj

theorem p1Tasks_typ (agents : String → Option AgentState) (js : List Job) :
    ∀ t ∈ js.filterMap (p1TaskOf agents), t.typ = taskTypeUnscheduleUnit := by
  intro t ht
  obtain ⟨j, hj, hsome⟩ := List.mem_filterMap.mp ht
  obtain ⟨rfl, -, -⟩ := p1TaskOf_props agents j t hsome
  rfl

theorem nodup_split_name (pre post : List Job) (j : Job)
    (hnd : ((pre ++ j :: post).map Job.Name).Nodup) :
    j.Name ∉ pre.map Job.Name ∧ j.Name ∉ post.map Job.Name := by
  rw [List.map_append, List.map_cons] at hnd
  obtain ⟨h1, h2, hdis⟩ := List.nodup_append.mp hnd
  constructor
  · intro hmem
    exact absurd (List.mem_cons_self j.Name (post.map Job.Name)) (hdis hmem)
  · exact (List.nodup_cons.mp h2).1

theorem p1Tasks_for_name (agents : String → Option AgentState) (js : List Job) (j : Job)
    (hnd : (js.map Job.Name).Nodup) (hj : j ∈ js)
    (hjs : j.Scheduled = true) (hu : (decideJob agents j).1.1 = true) :
    (js.filterMap (p1TaskOf agents)).filter (fun t => t.JobName == j.Name)
      = [⟨taskTypeUnscheduleUnit, (decideJob agents j).1.2, j.Name, j.TargetMachineID⟩] := by
  obtain ⟨pre, post, rfl⟩ := List.append_of_mem hj
  obtain ⟨hpre, hpost⟩ := nodup_split_name pre post j hnd
  rw [List.filterMap_append, List.filterMap_cons, p1TaskOf_some agents j hjs hu,
    List.filter_append]
  have hprefilter : (pre.filterMap (p1TaskOf agents)).filter
      (fun t => t.JobName == j.Name) = [] := by
    rw [List.filter_eq_nil_iff]
    intro t ht hname
    exact hpre (by
      have := p1Tasks_name_mem agents pre t ht
      rwa [show t.JobName = j.Name from by simpa using hname] at this)
  have hpostfilter : (post.filterMap (p1TaskOf agents)).filter
      (fun t => t.JobName == j.Name) = [] := by
    rw [List.filter_eq_nil_iff]
    intro t ht hname
    exact hpost (by
      have := p1Tasks_name_mem agents post t ht
      rwa [show t.JobName = j.Name from by simpa using hname] at this)
  rw [hprefilter]
  simp only [List.cons_append, List.nil_append, List.filter_cons]
  simp [hpostfilter]

theorem filter_name_length_le_one (ts : List task) (n : String)
    (hnd : (ts.map task.JobName).Nodup) :
    (ts.filter (fun t => t.JobName == n)).length ≤ 1 := by
  induction ts with
  | nil => simp
  | cons t rest ih =>
    rw [List.map_cons, List.nodup_cons] at hnd
    by_cases hn : t.JobName = n
    · have hrest : rest.filter (fun t => t.JobName == n) = [] := by
        rw [List.filter_eq_nil_iff]
        intro x hx hxn
        have hxn' : x.JobName = n := by simpa using hxn
        have hmem : x.JobName ∈ rest.map task.JobName :=
          List.mem_map_of_mem task.JobName hx
        rw [hxn', ← hn] at hmem
        exact hnd.1 hmem
      simp [List.filter_cons, hn, hrest]
    · simpa [List.filter_cons, hn] using ih hnd.2

theorem unschedPhase_names (agents : String → Option AgentState) (stopAt : Option Nat)
    (js : List Job) (c : clusterState) (p : Nat) :
    (unschedPhase agents stopAt js c p).clust.jobs.map Job.Name = c.jobs.map Job.Name := by
  have h := congrArg (List.map Prod.fst) (unschedPhase_sig agents stopAt js c p)
  simpa [List.map_map, Function.comp] using h

theorem unschedPhase_sig_mem (agents : String → Option AgentState) (stopAt : Option Nat)
    (js : List Job) (c : clusterState) (p : Nat) (jj : Job)
    (hjj : jj ∈ (unschedPhase agents stopAt js c p).clust.jobs) :
    ∃ j0 ∈ c.jobs, j0.Name = jj.Name ∧ j0.TargetState = jj.TargetState := by
  have h : (jj.Name, jj.TargetState) ∈ c.jobs.map (fun j => (j.Name, j.TargetState)) := by
    rw [← unschedPhase_sig agents stopAt js c p]
    exact List.mem_map_of_mem _ hjj
  obtain ⟨j0, hj0, hpair⟩ := List.mem_map.mp h
  exact ⟨j0, hj0, congrArg Prod.fst hpair, congrArg Prod.snd hpair⟩

theorem decideJob_mets_cases (agents : String → Option AgentState) (j : Job) :
    (decideJob agents j).2 = []
      ∨ (decideJob agents j).2 = [Metric.ReconcileFailure FailureKind.MachineAway]
      ∨ (decideJob agents j).2 = [Metric.ReconcileFailure FailureKind.RunFailure] := by
  unfold decideJob
  by_cases h1 : j.TargetState = JobStateInactive
  · simp [h1]
  · cases hag : agents j.TargetMachineID with
    | none => simp [h1, hag]
    | some ag =>
      by_cases h2 : (ag.AbleToRun j).1 = false
      · by_cases h3 : (ag.AbleToRun j).2 = JobReschedule <;> simp [h1, hag, h2, h3]
      · simp [h1, hag, h2]

/-! ### Pass decomposition without a stop signal -/

theorem pass_none_eq (sched : Scheduler) (clust : clusterState) :
    calculateClusterTasks sched clust none
      = ⟨(unschedPhase clust.agents none clust.jobs clust 0).trace
           ++ (schedPhase sched none
                (unschedPhase clust.agents none clust.jobs clust 0).clust.jobs
                (unschedPhase clust.agents none clust.jobs clust 0).clust
                (unschedPhase clust.agents none clust.jobs clust 0).polls).trace,
         (schedPhase sched none
           (unschedPhase clust.agents none clust.jobs clust 0).clust.jobs
           (unschedPhase clust.agents none clust.jobs clust 0).clust
           (unschedPhase clust.agents none clust.jobs clust 0).polls).clust⟩ := by
  simp only [calculateClusterTasks]
  rw [unschedPhase_cont_none]
  simp

theorem pass_eq_of_cont (sched : Scheduler) (clust : clusterState) (stopAt : Option Nat)
    (hc : (unschedPhase clust.agents stopAt clust.jobs clust 0).cont = true) :
    calculateClusterTasks sched clust stopAt
      = ⟨(unschedPhase clust.agents stopAt clust.jobs clust 0).trace
           ++ (schedPhase sched stopAt
                (unschedPhase clust.agents stopAt clust.jobs clust 0).clust.jobs
                (unschedPhase clust.agents stopAt clust.jobs clust 0).clust
                (unschedPhase clust.agents stopAt clust.jobs clust 0).polls).trace,
         (schedPhase sched stopAt
           (unschedPhase clust.agents stopAt clust.jobs clust 0).clust.jobs
           (unschedPhase clust.agents stopAt clust.jobs clust 0).clust
           (unschedPhase clust.agents stopAt clust.jobs clust 0).polls).clust⟩ := by
  simp only [calculateClusterTasks]
  rw [hc]
  simp

theorem pass_eq_of_stop (sched : Scheduler) (clust : clusterState) (stopAt : Option Nat)
    (hc : (unschedPhase clust.agents stopAt clust.jobs clust 0).cont = false) :
    calculateClusterTasks sched clust stopAt
      = ⟨(unschedPhase clust.agents stopAt clust.jobs clust 0).trace,
         (unschedPhase clust.agents stopAt clust.jobs clust 0).clust⟩ := by
  simp only [calculateClusterTasks]
  rw [hc]
  simp

/-! ### Further helper lemmas for the claim theorems -/

theorem taskType_ne : taskTypeAttemptScheduleUnit ≠ taskTypeUnscheduleUnit := by decide

theorem taskType_ne' : taskTypeUnscheduleUnit ≠ taskTypeAttemptScheduleUnit := by decide

theorem mem_metricsOf (m : Metric) (tr : List Ev) :
    m ∈ metricsOf tr ↔ Ev.metric m ∈ tr := by
  constructor
  · intro h
    obtain ⟨e, he, hm⟩ := List.mem_filterMap.mp h
    cases e <;> simp at hm
    rwa [hm] at he
  · intro h
    exact List.mem_filterMap.mpr ⟨Ev.metric m, h, rfl⟩

theorem filter_name_typ (ts : List task) (ty n : String) (hall : ∀ t ∈ ts, t.typ = ty) :
    ts.filter (fun t => t.JobName == n && t.typ == ty)
      = ts.filter (fun t => t.JobName == n) :=
  List.filter_congr fun t ht => by simp [hall t ht]

theorem filter_typ_ne_nil (ts : List task) (ty ty2 : String) (hne : ty2 ≠ ty)
    (hall : ∀ t ∈ ts, t.typ = ty) :
    ts.filter (fun t => t.JobName == n && t.typ == ty2) = [] := by
  rw [List.filter_eq_nil_iff]
  intro t ht
  simp only [hall t ht, Bool.and_eq_true, beq_iff_eq, not_and]
  exact fun _ hEq => hne hEq.symm

theorem decideJob_inactive (agents : String → Option AgentState) (j : Job)
    (h : j.TargetState = JobStateInactive) :
    decideJob agents j = ((true, "target state inactive"), []) := by
  simp [decideJob, h]

theorem decideJob_away (agents : String → Option AgentState) (j : Job)
    (h : j.TargetState ≠ JobStateInactive) (hag : agents j.TargetMachineID = none) :
    decideJob agents j
      = ((true, "target Machine(" ++ j.TargetMachineID ++ ") went away"),
         [Metric.ReconcileFailure FailureKind.MachineAway]) := by
  simp [decideJob, h, hag]

theorem decideJob_unable (agents : String → Option AgentState) (j : Job) (ag : AgentState)
    (h : j.TargetState ≠ JobStateInactive) (hag : agents j.TargetMachineID = some ag)
    (hable : (ag.AbleToRun j).1 = false) :
    decideJob agents j
      = (if (ag.AbleToRun j).2 = JobReschedule then
           ((true, (ag.AbleToRun j).2), [])
         else
           ((true, "target Machine(" ++ j.TargetMachineID ++ ") unable to run unit"),
            [Metric.ReconcileFailure FailureKind.RunFailure])) := by
  by_cases hr : (ag.AbleToRun j).2 = JobReschedule <;> simp [decideJob, h, hag, hable, hr]

theorem p1_metrics_mem (agents : String → Option AgentState) (js : List Job)
    (c : clusterState) (p : Nat) (j : Job) (m : Metric)
    (hj : j ∈ js) (hjs : j.Scheduled = true) (hm : m ∈ (decideJob agents j).2) :
    m ∈ metricsOf (unschedPhase agents none js c p).trace := by
  rw [unschedPhase_metrics_none]
  refine List.mem_flatMap.mpr ⟨j, hj, ?_⟩
  simpa [hjs] using hm

theorem passTasks_none_eq (sched : Scheduler) (clust : clusterState) :
    passTasks sched clust none
      = clust.jobs.filterMap (p1TaskOf clust.agents)
        ++ emittedTasks (schedPhase sched none
             (unschedPhase clust.agents none clust.jobs clust 0).clust.jobs
             (unschedPhase clust.agents none clust.jobs clust 0).clust
             (unschedPhase clust.agents none clust.jobs clust 0).polls).trace := by
  rw [passTasks, pass_none_eq]
  show emittedTasks ((unschedPhase clust.agents none clust.jobs clust 0).trace ++ _) = _
  rw [emittedTasks_append, unschedPhase_tasks_none]

theorem passClust_none_eq (sched : Scheduler) (clust : clusterState) :
    (calculateClusterTasks sched clust none).clust
      = (unschedPhase clust.agents none clust.jobs clust 0).clust.jobs.foldl
          (schedStep sched) (unschedPhase clust.agents none clust.jobs clust 0).clust := by
  rw [pass_none_eq]
  show (schedPhase sched none _ _ _).clust = _
  rw [schedPhase_clust_none]

theorem passMetrics_none_eq (sched : Scheduler) (clust : clusterState) :
    metricsOf (calculateClusterTasks sched clust none).trace
      = metricsOf (unschedPhase clust.agents none clust.jobs clust 0).trace
        ++ metricsOf (schedPhase sched none
             (unschedPhase clust.agents none clust.jobs clust 0).clust.jobs
             (unschedPhase clust.agents none clust.jobs clust 0).clust
             (unschedPhase clust.agents none clust.jobs clust 0).polls).trace := by
  rw [pass_none_eq]
  show metricsOf ((unschedPhase clust.agents none clust.jobs clust 0).trace ++ _) = _
  rw [metricsOf_append]

theorem p1_count_runFailure (agents : String → Option AgentState) (js : List Job)
    (c : clusterState) (p : Nat) :
    (metricsOf (unschedPhase agents none js c p).trace).count
        (Metric.ReconcileFailure FailureKind.RunFailure)
      = js.countP (fun j => j.Scheduled
          && ((decideJob agents j).2 == [Metric.ReconcileFailure FailureKind.RunFailure])) := by
  rw [unschedPhase_metrics_none]
  induction js with
  | nil => rfl
  | cons j rest ih =>
    rw [List.flatMap_cons, List.count_append, List.countP_cons]
    cases hjs : j.Scheduled with
    | false => simpa [hjs] using ih
    | true =>
      rcases decideJob_mets_cases agents j with hm | hm | hm
      · simp only [hjs, hm, if_true, reduceIte]
        simpa [List.count_nil] using ih
      · simp only [hjs, hm, if_true, reduceIte]
        rw [List.count_cons]
        simpa [List.count_nil] using ih
      · have h2 := ih
        simp only [hjs, hm, if_true, reduceIte]
        simp [List.count_cons, List.count_nil]
        omega

theorem schedPhase_count_runFailure (sched : Scheduler) (stopAt : Option Nat)
    (js : List Job) (c : clusterState) (p : Nat) :
    (metricsOf (schedPhase sched stopAt js c p).trace).count
        (Metric.ReconcileFailure FailureKind.RunFailure) = 0 := by
  rw [List.count_eq_zero]
  intro hmem
  have h := schedPhase_metric_kinds sched stopAt js c p _ hmem
  simp at h

theorem filter_typ_all (ts : List task) (ty : String) (hall : ∀ t ∈ ts, t.typ = ty) :
    ts.filter (fun t => t.typ == ty) = ts :=
  List.filter_eq_self.mpr fun t ht => by simp [hall t ht]

theorem filter_typ_none (ts : List task) (ty ty2 : String) (hne : ty ≠ ty2)
    (hall : ∀ t ∈ ts, t.typ = ty) :
    ts.filter (fun t => t.typ == ty2) = [] := by
  rw [List.filter_eq_nil_iff]
  intro t ht
  simp [hall t ht, hne]

theorem filter_typname_all (ts : List task) (ty n : String) (hall : ∀ t ∈ ts, t.typ = ty) :
    ts.filter (fun t => t.typ == ty && t.JobName == n)
      = ts.filter (fun t => t.JobName == n) :=
  List.filter_congr fun t ht => by simp [hall t ht]

theorem filter_typname_none (ts : List task) (ty ty2 n : String) (hne : ty ≠ ty2)
    (hall : ∀ t ∈ ts, t.typ = ty) :
    ts.filter (fun t => t.typ == ty2 && t.JobName == n) = [] := by
  rw [List.filter_eq_nil_iff]
  intro t ht
  simp only [hall t ht, Bool.and_eq_true, beq_iff_eq, not_and]
  exact fun hEq => absurd hEq.symm (fun h => hne h.symm)

theorem tasks_split_props (ts1 ts2 : List task)
    (hnd1 : (ts1.map task.JobName).Nodup) (hnd2 : (ts2.map task.JobName).Nodup)
    (h1 : ∀ t ∈ ts1, t.typ = taskTypeUnscheduleUnit)
    (h2 : ∀ t ∈ ts2, t.typ = taskTypeAttemptScheduleUnit) :
    ((ts1 ++ ts2).filter (fun t => t.typ == taskTypeUnscheduleUnit)
        ++ (ts1 ++ ts2).filter (fun t => t.typ == taskTypeAttemptScheduleUnit)
      = ts1 ++ ts2)
    ∧ ∀ n : String,
        ((ts1 ++ ts2).filter
            (fun t => t.typ == taskTypeUnscheduleUnit && t.JobName == n)).length ≤ 1
        ∧ ((ts1 ++ ts2).filter
            (fun t => t.typ == taskTypeAttemptScheduleUnit && t.JobName == n)).length ≤ 1 := by
  constructor
  · rw [List.filter_append, List.filter_append,
      filter_typ_all ts1 taskTypeUnscheduleUnit h1,
      filter_typ_none ts2 taskTypeAttemptScheduleUnit taskTypeUnscheduleUnit taskType_ne h2,
      filter_typ_none ts1 taskTypeUnscheduleUnit taskTypeAttemptScheduleUnit taskType_ne' h1,
      filter_typ_all ts2 taskTypeAttemptScheduleUnit h2]
    simp
  · intro n
    constructor
    · rw [List.filter_append,
        filter_typname_all ts1 taskTypeUnscheduleUnit n h1,
        filter_typname_none ts2 taskTypeAttemptScheduleUnit taskTypeUnscheduleUnit n
          taskType_ne h2, List.append_nil]
      exact filter_name_length_le_one ts1 n hnd1
    · rw [List.filter_append,
        filter_typname_none ts1 taskTypeUnscheduleUnit taskTypeAttemptScheduleUnit n
          taskType_ne' h1,
        filter_typname_all ts2 taskTypeAttemptScheduleUnit n h2, List.nil_append]
      exact filter_name_length_le_one ts2 n hnd2

theorem Reconcile_ok (sched : Scheduler) (e : Engine) (stopAt : Option Nat)
    (clust : clusterState) (hok : e.clusterState = Except.ok clust) :
    Reconcile sched e stopAt
      = (emittedTasks (calculateClusterTasks sched clust stopAt).trace,
         (calculateClusterTasks sched clust stopAt).trace
           ++ (emittedTasks (calculateClusterTasks sched clust stopAt).trace).flatMap
                (fun t => Ev.exec t :: (doTask t e).2.map Ev.metric)
           ++ [Ev.metric Metric.ReconcileSuccess]) := by
  simp [Reconcile, hok]

/-! ### Claim theorems -/

/-- C9.  If building the cluster snapshot fails, the reconcile pass
returns immediately: no tasks are produced or executed, the pass trace
is empty (so no stop polls, no hand-offs, no Registry-writing task
executions and no metric reports occur), and in particular the
reconcile-success metric is not reported (reconciler.go lines 57–61). -/
theorem reconcile_snapshot_error_aborts (sched : Scheduler) (e : Engine)
    (stopAt : Option Nat) (msg : String)
    (herr : e.clusterState = Except.error msg) :
    Reconcile sched e stopAt = ([], []) := by
  simp [Reconcile, herr]

/-- Witness for C9 at a concrete engine whose snapshot build fails. -/
theorem reconcile_snapshot_error_aborts_witness :
    Reconcile schedErr wEngineDown none = ([], []) :=
  reconcile_snapshot_error_aborts schedErr wEngineDown none "registry down" rfl

/-- C10.  Executing an `AttemptScheduleUnit` task can never be observed
to fail: `doTask` discards the result of `Engine.attemptScheduleUnit`
(the conclusion holds for every engine), returns a nil error and
reports exactly the `EngineTask` metric for that task type; the
`EngineTaskFailure` metric is reported exactly for a failed
`UnscheduleUnit` task or an unrecognized task type
(reconciler.go lines 165–184). -/
theorem doTask_attempt_infallible (t : task) (e : Engine) :
    (t.typ = taskTypeAttemptScheduleUnit →
       doTask t e = (none, [Metric.EngineTask t.typ]))
    ∧ (Metric.EngineTaskFailure t.typ ∈ (doTask t e).2
        ↔ (t.typ = taskTypeUnscheduleUnit
             ∧ ∃ msg, e.unscheduleUnit t.JobName t.MachineID = some msg)
          ∨ (t.typ ≠ taskTypeUnscheduleUnit ∧ t.typ ≠ taskTypeAttemptScheduleUnit)) := by
  constructor
  · intro h
    simp [doTask, h, taskType_ne]
  · by_cases h1 : t.typ = taskTypeUnscheduleUnit
    · cases hx : e.unscheduleUnit t.JobName t.MachineID with
      | none => simp [doTask, h1, hx, taskType_ne']
      | some m => simp [doTask, h1, hx]
    · by_cases h2 : t.typ = taskTypeAttemptScheduleUnit
      · simp [doTask, h1, h2, taskType_ne]
      · simp [doTask, h1, h2]

/-- Witness for C10 at a concrete attempt-schedule task and engine. -/
theorem doTask_attempt_infallible_witness :
    doTask ⟨taskTypeAttemptScheduleUnit, "r", "J", "A"⟩ wEngine
      = (none, [Metric.EngineTask taskTypeAttemptScheduleUnit]) := by
  have h := (doTask_attempt_infallible ⟨taskTypeAttemptScheduleUnit, "r", "J", "A"⟩ wEngine).1 rfl
  simpa using h

/-- C7.  The task producer polls the stop channel before every hand-off
(`handOffsGuarded`: every hand-off event is immediately preceded by a
poll that returned "not stopped"), and after a poll observes the stop
signal no further task is handed off in the pass
(`noHandOffAfterStop`); the producer then returns, which closes its
output channel (totality of `calculateClusterTasks` — reconciler.go
lines 76–88). -/
theorem stop_signal_honored (sched : Scheduler) (clust : clusterState)
    (stopAt : Option Nat) :
    noHandOffAfterStop (calculateClusterTasks sched clust stopAt).trace = true
    ∧ handOffsGuarded (calculateClusterTasks sched clust stopAt).trace = true :=
  ⟨pass_noHandOffAfterStop sched clust stopAt, pass_handOffsGuarded sched clust stopAt⟩

/-- C2.  Every scheduled job with target state inactive is, absent a
stop signal, issued exactly one task in the pass: the `UnscheduleUnit`
task carrying the job's name, its target machine id and the reason
"target state inactive" (reconciler.go lines 97–101 and 128–137), and
the snapshot afterwards records the job as unscheduled.  Uniqueness of
job names matches the Registry's job-name keying. -/
theorem inactive_scheduled_unscheduled (sched : Scheduler) (clust : clusterState) (j : Job)
    (hnd : (clust.jobs.map Job.Name).Nodup) (hj : j ∈ clust.jobs)
    (hsched : j.Scheduled = true) (hts : j.TargetState = JobStateInactive) :
    (passTasks sched clust none).filter (fun t => t.JobName == j.Name)
      = [⟨taskTypeUnscheduleUnit, "target state inactive", j.Name, j.TargetMachineID⟩]
    ∧ ∀ j' ∈ (calculateClusterTasks sched clust none).clust.jobs,
        j'.Name = j.Name → j'.TargetMachineID = "" := by
  have hdec := decideJob_inactive clust.agents j hts
  have hu : (decideJob clust.agents j).1.1 = true := by rw [hdec]
  have hreason : (decideJob clust.agents j).1.2 = "target state inactive" := by rw [hdec]
  have hsame : ∀ jj ∈ (unschedPhase clust.agents none clust.jobs clust 0).clust.jobs,
      jj.Name = j.Name → jj.TargetState = JobStateInactive := by
    intro jj hjj hname
    obtain ⟨j0, hj0, hj0n, hj0t⟩ :=
      unschedPhase_sig_mem clust.agents none clust.jobs clust 0 jj hjj
    have : j0 = j :=
      List.inj_on_of_nodup_map hnd hj0 hj (by rw [hj0n, hname])
    rw [← hj0t, this, hts]
  constructor
  · rw [passTasks_none_eq, List.filter_append]
    have h1 : (clust.jobs.filterMap (p1TaskOf clust.agents)).filter
        (fun t => t.JobName == j.Name)
        = [⟨taskTypeUnscheduleUnit, "target state inactive", j.Name, j.TargetMachineID⟩] := by
      rw [p1Tasks_for_name clust.agents clust.jobs j hnd hj hsched hu, hreason]
    have h2 : (emittedTasks (schedPhase sched none
          (unschedPhase clust.agents none clust.jobs clust 0).clust.jobs
          (unschedPhase clust.agents none clust.jobs clust 0).clust
          (unschedPhase clust.agents none clust.jobs clust 0).polls).trace).filter
        (fun t => t.JobName == j.Name) = [] := by
      rw [List.filter_eq_nil_iff]
      intro t ht hname
      obtain ⟨jj, hjj, hjns, hjti, htn⟩ := schedPhase_task_elig sched none _ _ _ t ht
      have hname' : t.JobName = j.Name := by simpa using hname
      exact hjti (hsame jj hjj (by rw [← htn, hname']))
    rw [h1, h2, List.append_nil]
  · rw [passClust_none_eq]
    obtain ⟨pre, post, hsplit⟩ := List.append_of_mem hj
    have hclear : ∀ j' ∈ (unschedPhase clust.agents none clust.jobs clust 0).clust.jobs,
        j'.Name = j.Name → j'.TargetMachineID = "" := by
      rw [unschedPhase_clust_none, hsplit]
      exact p1Foldl_clears clust.agents pre post j clust ⟨hsched, hu⟩
    exact namedProp_schedFoldl sched _ _ j.Name "" hclear
      (fun jj hjj hname => Or.inr (hsame jj hjj hname))

/-- Witness for C2: scenario 1 of §8 — one agent A, one job J scheduled
to A with target state inactive. -/
theorem inactive_scheduled_unscheduled_witness :
    (passTasks schedErr wClustInactive none).filter (fun t => t.JobName == "J")
      = [⟨taskTypeUnscheduleUnit, "target state inactive", "J", "A"⟩]
    ∧ ∀ j' ∈ (calculateClusterTasks schedErr wClustInactive none).clust.jobs,
        j'.Name = "J" → j'.TargetMachineID = "" := by
  have h := inactive_scheduled_unscheduled schedErr wClustInactive
    ⟨"J", JobState.inactive, "A"⟩ (by decide)
    (by simp [wClustInactive]) (by decide) rfl
  simpa using h

/-- C3.  Every job scheduled to a machine id absent from the snapshot's
agent map, with target state not inactive, is issued exactly one
`UnscheduleUnit` task in the stop-free pass, whose reason names the
missing machine ("target Machine(id) went away"), and the `MachineAway`
reconcile-failure metric is reported (reconciler.go lines 103–110). -/
theorem machine_away_unscheduled (sched : Scheduler) (clust : clusterState) (j : Job)
    (hnd : (clust.jobs.map Job.Name).Nodup) (hj : j ∈ clust.jobs)
    (hsched : j.Scheduled = true) (hts : j.TargetState ≠ JobStateInactive)
    (hag : clust.agents j.TargetMachineID = none) :
    (passTasks sched clust none).filter
        (fun t => t.JobName == j.Name && t.typ == taskTypeUnscheduleUnit)
      = [⟨taskTypeUnscheduleUnit,
          "target Machine(" ++ j.TargetMachineID ++ ") went away",
          j.Name, j.TargetMachineID⟩]
    ∧ Ev.metric (Metric.ReconcileFailure FailureKind.MachineAway)
        ∈ (calculateClusterTasks sched clust none).trace := by
  have hdec := decideJob_away clust.agents j hts hag
  have hu : (decideJob clust.agents j).1.1 = true := by rw [hdec]
  have hreason : (decideJob clust.agents j).1.2
      = "target Machine(" ++ j.TargetMachineID ++ ") went away" := by rw [hdec]
  constructor
  · rw [passTasks_none_eq, List.filter_append]
    have h1 : (clust.jobs.filterMap (p1TaskOf clust.agents)).filter
        (fun t => t.JobName == j.Name && t.typ == taskTypeUnscheduleUnit)
        = [⟨taskTypeUnscheduleUnit,
            "target Machine(" ++ j.TargetMachineID ++ ") went away",
            j.Name, j.TargetMachineID⟩] := by
      rw [filter_name_typ _ _ _ (p1Tasks_typ clust.agents clust.jobs),
        p1Tasks_for_name clust.agents clust.jobs j hnd hj hsched hu, hreason]
    have h2 : (emittedTasks (schedPhase sched none
          (unschedPhase clust.agents none clust.jobs clust 0).clust.jobs
          (unschedPhase clust.agents none clust.jobs clust 0).clust
          (unschedPhase clust.agents none clust.jobs clust 0).polls).trace).filter
        (fun t => t.JobName == j.Name && t.typ == taskTypeUnscheduleUnit) = [] :=
      filter_typ_ne_nil _ taskTypeAttemptScheduleUnit taskTypeUnscheduleUnit taskType_ne'
        (schedPhase_task_typ sched none _ _ _)
    rw [h1, h2, List.append_nil]
  · have hmem := p1_metrics_mem clust.agents clust.jobs clust 0 j
      (Metric.ReconcileFailure FailureKind.MachineAway) hj hsched
      (by rw [hdec]; exact List.mem_singleton_self _)
    rw [pass_none_eq]
    show Ev.metric (Metric.ReconcileFailure FailureKind.MachineAway)
      ∈ (unschedPhase clust.agents none clust.jobs clust 0).trace ++ _
    exact List.mem_append_left _ ((mem_metricsOf _ _).mp hmem)

/-- Witness for C3: scenario 2 of §8 — agents {A}, job J scheduled to
the absent machine B. -/
theorem machine_away_unscheduled_witness :
    (passTasks (schedTo "A") wClustAway none).filter
        (fun t => t.JobName == "J" && t.typ == taskTypeUnscheduleUnit)
      = [⟨taskTypeUnscheduleUnit, "target Machine(" ++ "B" ++ ") went away", "J", "B"⟩]
    ∧ Ev.metric (Metric.ReconcileFailure FailureKind.MachineAway)
        ∈ (calculateClusterTasks (schedTo "A") wClustAway none).trace := by
  have h := machine_away_unscheduled (schedTo "A") wClustAway
    ⟨"J", JobState.launched, "B"⟩ (by decide) (by simp [wClustAway]) (by decide)
    (by decide) rfl
  exact h

/-- C4.  A scheduled job whose present target agent rejects it via
`AbleToRun` is unscheduled; when the agent's reason is the
`JobReschedule` marker the task's reason is exactly that marker and the
job's decision reports no metric, otherwise the reason is the generic
"target Machine(id) unable to run unit", the decision reports
`RunFailure`, and the metric appears in the pass trace; globally the
number of `RunFailure` reports of the stop-free pass equals the number
of scheduled jobs whose decision reports `RunFailure` — so the
marker case increments nothing (reconciler.go lines 112–123). -/
theorem unable_to_run_unscheduled (sched : Scheduler) (clust : clusterState) (j : Job)
    (ag : AgentState)
    (hnd : (clust.jobs.map Job.Name).Nodup) (hj : j ∈ clust.jobs)
    (hsched : j.Scheduled = true) (hts : j.TargetState ≠ JobStateInactive)
    (hag : clust.agents j.TargetMachineID = some ag)
    (hable : (ag.AbleToRun j).1 = false) :
    ((ag.AbleToRun j).2 = JobReschedule →
       (passTasks sched clust none).filter
           (fun t => t.JobName == j.Name && t.typ == taskTypeUnscheduleUnit)
         = [⟨taskTypeUnscheduleUnit, (ag.AbleToRun j).2, j.Name, j.TargetMachineID⟩]
       ∧ (decideJob clust.agents j).2 = [])
    ∧ ((ag.AbleToRun j).2 ≠ JobReschedule →
       (passTasks sched clust none).filter
           (fun t => t.JobName == j.Name && t.typ == taskTypeUnscheduleUnit)
         = [⟨taskTypeUnscheduleUnit,
             "target Machine(" ++ j.TargetMachineID ++ ") unable to run unit",
             j.Name, j.TargetMachineID⟩]
       ∧ (decideJob clust.agents j).2 = [Metric.ReconcileFailure FailureKind.RunFailure]
       ∧ Ev.metric (Metric.ReconcileFailure FailureKind.RunFailure)
           ∈ (calculateClusterTasks sched clust none).trace)
    ∧ (metricsOf (calculateClusterTasks sched clust none).trace).count
         (Metric.ReconcileFailure FailureKind.RunFailure)
       = clust.jobs.countP (fun j' => j'.Scheduled
           && ((decideJob clust.agents j').2
                 == [Metric.ReconcileFailure FailureKind.RunFailure])) := by
  have hdec := decideJob_unable clust.agents j ag hts hag hable
  have hfilter : ∀ reason,
      (decideJob clust.agents j).1.1 = true →
      (decideJob clust.agents j).1.2 = reason →
      (passTasks sched clust none).filter
          (fun t => t.JobName == j.Name && t.typ == taskTypeUnscheduleUnit)
        = [⟨taskTypeUnscheduleUnit, reason, j.Name, j.TargetMachineID⟩] := by
    intro reason hu hreason
    rw [passTasks_none_eq, List.filter_append]
    have h1 : (clust.jobs.filterMap (p1TaskOf clust.agents)).filter
        (fun t => t.JobName == j.Name && t.typ == taskTypeUnscheduleUnit)
        = [⟨taskTypeUnscheduleUnit, reason, j.Name, j.TargetMachineID⟩] := by
      rw [filter_name_typ _ _ _ (p1Tasks_typ clust.agents clust.jobs),
        p1Tasks_for_name clust.agents clust.jobs j hnd hj hsched hu, hreason]
    have h2 : (emittedTasks (schedPhase sched none
          (unschedPhase clust.agents none clust.jobs clust 0).clust.jobs
          (unschedPhase clust.agents none clust.jobs clust 0).clust
          (unschedPhase clust.agents none clust.jobs clust 0).polls).trace).filter
        (fun t => t.JobName == j.Name && t.typ == taskTypeUnscheduleUnit) = [] :=
      filter_typ_ne_nil _ taskTypeAttemptScheduleUnit taskTypeUnscheduleUnit taskType_ne'
        (schedPhase_task_typ sched none _ _ _)
    rw [h1, h2, List.append_nil]
  refine ⟨?_, ?_, ?_⟩
  · intro hr
    rw [hr] at hdec
    simp only [if_true, reduceIte] at hdec
    refine ⟨?_, by rw [hdec]⟩
    exact hfilter (ag.AbleToRun j).2 (by rw [hdec]) (by rw [hdec, hr])
  · intro hr
    rw [if_neg hr] at hdec
    refine ⟨hfilter _ (by rw [hdec]) (by rw [hdec]), by rw [hdec], ?_⟩
    have hmem := p1_metrics_mem clust.agents clust.jobs clust 0 j
      (Metric.ReconcileFailure FailureKind.RunFailure) hj hsched
      (by rw [hdec]; exact List.mem_singleton_self _)
    rw [pass_none_eq]
    show Ev.metric (Metric.ReconcileFailure FailureKind.RunFailure)
      ∈ (unschedPhase clust.agents none clust.jobs clust 0).trace ++ _
    exact List.mem_append_left _ ((mem_metricsOf _ _).mp hmem)
  · rw [passMetrics_none_eq, List.count_append, p1_count_runFailure,
      schedPhase_count_runFailure]
    simp

/-- Witness for C4: scenario 4 of §8 — job J scheduled to B, agent B
rejects J with the `JobReschedule` marker. -/
theorem unable_to_run_unscheduled_witness :
    (passTasks (schedTo "A") wClustResched none).filter
        (fun t => t.JobName == "J" && t.typ == taskTypeUnscheduleUnit)
      = [⟨taskTypeUnscheduleUnit, JobReschedule, "J", "B"⟩]
    ∧ (metricsOf (calculateClusterTasks (schedTo "A") wClustResched none).trace).count
        (Metric.ReconcileFailure FailureKind.RunFailure)
      = wClustResched.jobs.countP (fun j' => j'.Scheduled
          && ((decideJob wClustResched.agents j').2
                == [Metric.ReconcileFailure FailureKind.RunFailure])) := by
  have h := unable_to_run_unscheduled (schedTo "A") wClustResched
    ⟨"J", JobState.launched, "B"⟩ agentResched (by decide) (by simp [wClustResched])
    (by decide) (by decide) rfl rfl
  exact ⟨(h.1 rfl).1, h.2.2⟩

/-- C1.  In any pass (any stop timing): every `UnscheduleUnit` task
precedes every `AttemptScheduleUnit` task (the task list is the
unschedule-phase tasks followed by the schedule-phase tasks —
reconciler.go lines 92–159); per unit at most one unschedule and at
most one schedule task is emitted; and, absent a stop signal, a job the
unschedule phase unschedules appears in the snapshot consulted by the
schedule phase as unscheduled with its target state intact — the pass
observes its own in-memory mutations. -/
theorem unschedule_precedes_schedule (sched : Scheduler) (clust : clusterState)
    (stopAt : Option Nat) (hnd : (clust.jobs.map Job.Name).Nodup) :
    ((passTasks sched clust stopAt).filter (fun t => t.typ == taskTypeUnscheduleUnit)
        ++ (passTasks sched clust stopAt).filter
             (fun t => t.typ == taskTypeAttemptScheduleUnit)
      = passTasks sched clust stopAt)
    ∧ (∀ n : String,
        ((passTasks sched clust stopAt).filter
            (fun t => t.typ == taskTypeUnscheduleUnit && t.JobName == n)).length ≤ 1
        ∧ ((passTasks sched clust stopAt).filter
            (fun t => t.typ == taskTypeAttemptScheduleUnit && t.JobName == n)).length ≤ 1)
    ∧ (stopAt = none → ∀ j ∈ clust.jobs, j.Scheduled = true →
        (decideJob clust.agents j).1.1 = true →
        ∃ j' ∈ (unschedPhase clust.agents none clust.jobs clust 0).clust.jobs,
          j'.Name = j.Name ∧ j'.TargetMachineID = "" ∧ j'.TargetState = j.TargetState) := by
  have hnd1 : ((emittedTasks
      (unschedPhase clust.agents stopAt clust.jobs clust 0).trace).map task.JobName).Nodup :=
    List.Nodup.sublist (unschedPhase_task_names clust.agents stopAt clust.jobs clust 0) hnd
  have key : ((passTasks sched clust stopAt).filter
        (fun t => t.typ == taskTypeUnscheduleUnit)
        ++ (passTasks sched clust stopAt).filter
             (fun t => t.typ == taskTypeAttemptScheduleUnit)
      = passTasks sched clust stopAt)
      ∧ ∀ n : String,
        ((passTasks sched clust stopAt).filter
            (fun t => t.typ == taskTypeUnscheduleUnit && t.JobName == n)).length ≤ 1
        ∧ ((passTasks sched clust stopAt).filter
            (fun t => t.typ == taskTypeAttemptScheduleUnit && t.JobName == n)).length ≤ 1 := by
    cases hc : (unschedPhase clust.agents stopAt clust.jobs clust 0).cont with
    | true =>
      have hpass : passTasks sched clust stopAt
          = emittedTasks (unschedPhase clust.agents stopAt clust.jobs clust 0).trace
            ++ emittedTasks (schedPhase sched stopAt
                 (unschedPhase clust.agents stopAt clust.jobs clust 0).clust.jobs
                 (unschedPhase clust.agents stopAt clust.jobs clust 0).clust
                 (unschedPhase clust.agents stopAt clust.jobs clust 0).polls).trace := by
        rw [passTasks, pass_eq_of_cont sched clust stopAt hc]
        show emittedTasks
          ((unschedPhase clust.agents stopAt clust.jobs clust 0).trace ++ _) = _
        rw [emittedTasks_append]
      have hnd2 : ((emittedTasks (schedPhase sched stopAt
          (unschedPhase clust.agents stopAt clust.jobs clust 0).clust.jobs
          (unschedPhase clust.agents stopAt clust.jobs clust 0).clust
          (unschedPhase clust.agents stopAt clust.jobs clust 0).polls).trace).map
            task.JobName).Nodup := by
        refine List.Nodup.sublist (schedPhase_task_names sched stopAt _ _ _) ?_
        rw [unschedPhase_names]
        exact hnd
      rw [hpass]
      exact tasks_split_props _ _ hnd1 hnd2
        (unschedPhase_task_typ clust.agents stopAt clust.jobs clust 0)
        (schedPhase_task_typ sched stopAt _ _ _)
    | false =>
      have hpass : passTasks sched clust stopAt
          = emittedTasks (unschedPhase clust.agents stopAt clust.jobs clust 0).trace ++ [] := by
        rw [passTasks, pass_eq_of_stop sched clust stopAt hc, List.append_nil]
      rw [hpass]
      exact tasks_split_props _ [] hnd1 (by simp)
        (unschedPhase_task_typ clust.agents stopAt clust.jobs clust 0) (by simp)
  refine ⟨key.1, key.2, ?_⟩
  rintro rfl j hj hsched hu
  have hname : j.Name
      ∈ (unschedPhase clust.agents none clust.jobs clust 0).clust.jobs.map Job.Name := by
    rw [unschedPhase_names]
    exact List.mem_map_of_mem Job.Name hj
  obtain ⟨j', hj', hj'n⟩ := List.mem_map.mp hname
  obtain ⟨pre, post, hsplit⟩ := List.append_of_mem hj
  have hclear : j'.TargetMachineID = "" := by
    have h := p1Foldl_clears clust.agents pre post j clust ⟨hsched, hu⟩
    rw [← hsplit, ← unschedPhase_clust_none] at h
    exact h j' hj' hj'n
  have hts : j'.TargetState = j.TargetState := by
    obtain ⟨j0, hj0, hj0n, hj0t⟩ :=
      unschedPhase_sig_mem clust.agents none clust.jobs clust 0 j' hj'
    have : j0 = j := List.inj_on_of_nodup_map hnd hj0 hj (by rw [hj0n, hj'n])
    rw [← hj0t, this]
  exact ⟨j', hj', hj'n, hclear, hts⟩

/-- Witness for C1 (ordering conjunct) at a concrete snapshot. -/
theorem unschedule_precedes_schedule_witness :
    (passTasks schedErr wClustInactive none).filter
        (fun t => t.typ == taskTypeUnscheduleUnit)
      ++ (passTasks schedErr wClustInactive none).filter
           (fun t => t.typ == taskTypeAttemptScheduleUnit)
      = passTasks schedErr wClustInactive none :=
  (unschedule_precedes_schedule schedErr wClustInactive none (by decide)).1

/-- C5.  In the schedule phase of a stop-free pass, a job that the
(possibly phase-1-mutated) snapshot shows as unscheduled and whose
target state is not inactive is submitted to the scheduler with the
snapshot as mutated by the earlier schedule-phase iterations; when the
scheduler returns a machine id, exactly one `AttemptScheduleUnit` task
is emitted for the job, carrying that machine id and the reason
"target state <TargetState> and unit not scheduled", and the final
snapshot records the job as scheduled to that machine
(reconciler.go lines 140–159). -/
theorem schedule_phase_places_job (sched : Scheduler) (clust : clusterState)
    (pre post : List Job) (j : Job) (dec : decision)
    (hnd : (clust.jobs.map Job.Name).Nodup)
    (hsplit : (unschedPhase clust.agents none clust.jobs clust 0).clust.jobs
        = pre ++ j :: post)
    (hns : j.Scheduled = false)
    (hts : j.TargetState ≠ JobStateInactive)
    (hdec : sched (pre.foldl (schedStep sched)
        (unschedPhase clust.agents none clust.jobs clust 0).clust) j = Except.ok dec) :
    (passTasks sched clust none).filter
        (fun t => t.JobName == j.Name && t.typ == taskTypeAttemptScheduleUnit)
      = [⟨taskTypeAttemptScheduleUnit,
          "target state " ++ j.TargetState.toString ++ " and unit not scheduled",
          j.Name, dec.machineID⟩]
    ∧ ∀ j' ∈ (calculateClusterTasks sched clust none).clust.jobs,
        j'.Name = j.Name → j'.TargetMachineID = dec.machineID := by
  have hskip : ¬(j.Scheduled = true ∨ j.TargetState = JobStateInactive) := by
    rintro (h | h)
    · rw [hns] at h
      exact Bool.false_ne_true h
    · exact hts h
  have hnd2 : ((pre ++ j :: post).map Job.Name).Nodup := by
    rw [← hsplit, unschedPhase_names]
    exact hnd
  obtain ⟨hpreName, hpostName⟩ := nodup_split_name pre post j hnd2
  have htrace2 : (schedPhase sched none
        (unschedPhase clust.agents none clust.jobs clust 0).clust.jobs
        (unschedPhase clust.agents none clust.jobs clust 0).clust
        (unschedPhase clust.agents none clust.jobs clust 0).polls).trace
      = (schedPhase sched none pre
          (unschedPhase clust.agents none clust.jobs clust 0).clust
          (unschedPhase clust.agents none clust.jobs clust 0).polls).trace
        ++ Ev.poll false
        :: Ev.handOff ⟨taskTypeAttemptScheduleUnit,
             "target state " ++ j.TargetState.toString ++ " and unit not scheduled",
             j.Name, dec.machineID⟩
        :: (schedPhase sched none post
             ((pre.foldl (schedStep sched)
                (unschedPhase clust.agents none clust.jobs clust 0).clust).schedule
                j.Name dec.machineID)
             ((unschedPhase clust.agents none clust.jobs clust 0).polls + 1)).trace := by
    rw [hsplit, schedPhase_trace_append_none,
      schedPhase_cons_emit sched none j post _ _ dec hskip hdec rfl]
  constructor
  · rw [passTasks_none_eq, List.filter_append]
    have h1 : (clust.jobs.filterMap (p1TaskOf clust.agents)).filter
        (fun t => t.JobName == j.Name && t.typ == taskTypeAttemptScheduleUnit) = [] :=
      filter_typ_ne_nil _ taskTypeUnscheduleUnit taskTypeAttemptScheduleUnit taskType_ne
        (p1Tasks_typ clust.agents clust.jobs)
    have hpre0 : (emittedTasks (schedPhase sched none pre
          (unschedPhase clust.agents none clust.jobs clust 0).clust
          (unschedPhase clust.agents none clust.jobs clust 0).polls).trace).filter
        (fun t => t.JobName == j.Name && t.typ == taskTypeAttemptScheduleUnit) = [] := by
      rw [List.filter_eq_nil_iff]
      intro t ht hp
      obtain ⟨jj, hjj, -, -, htn⟩ := schedPhase_task_elig sched none pre _ _ t ht
      have hnm : t.JobName = j.Name := by
        have := (Bool.and_eq_true _ _).mp hp
        simpa using this.1
      exact hpreName (by
        rw [← hnm, htn] at *
        exact List.mem_map_of_mem Job.Name hjj)
    have hpost0 : (emittedTasks (schedPhase sched none post
          ((pre.foldl (schedStep sched)
             (unschedPhase clust.agents none clust.jobs clust 0).clust).schedule
             j.Name dec.machineID)
          ((unschedPhase clust.agents none clust.jobs clust 0).polls + 1)).trace).filter
        (fun t => t.JobName == j.Name && t.typ == taskTypeAttemptScheduleUnit) = [] := by
      rw [List.filter_eq_nil_iff]
      intro t ht hp
      obtain ⟨jj, hjj, -, -, htn⟩ := schedPhase_task_elig sched none post _ _ t ht
      have hnm : t.JobName = j.Name := by
        have := (Bool.and_eq_true _ _).mp hp
        simpa using this.1
      exact hpostName (by
        rw [← hnm, htn] at *
        exact List.mem_map_of_mem Job.Name hjj)
    rw [h1, List.nil_append, htrace2, emittedTasks_append, emittedTasks_poll,
      emittedTasks_handOff, List.filter_append, hpre0, List.nil_append,
      List.filter_cons]
    simp only [beq_self_eq_true, Bool.and_self, if_true, reduceIte, hpost0]
  · rw [passClust_none_eq, hsplit, List.foldl_append, List.foldl_cons]
    have hstep : schedStep sched
        (pre.foldl (schedStep sched)
          (unschedPhase clust.agents none clust.jobs clust 0).clust) j
        = (pre.foldl (schedStep sched)
            (unschedPhase clust.agents none clust.jobs clust 0).clust).schedule
            j.Name dec.machineID := by
      simp [schedStep, hskip, hdec]
    rw [hstep]
    refine namedProp_schedFoldl sched post _ j.Name dec.machineID
      (schedule_named _ j.Name dec.machineID) ?_
    intro jj hjj hname
    exact absurd (by
      rw [← hname] at *
      exact List.mem_map_of_mem Job.Name hjj) hpostName

/-- Witness for C5: scenario 3 of §8 — job J unscheduled with target
state launched, scheduler decides on machine B. -/
theorem schedule_phase_places_job_witness :
    (passTasks (schedTo "B") wClustFree none).filter
        (fun t => t.JobName == "J" && t.typ == taskTypeAttemptScheduleUnit)
      = [⟨taskTypeAttemptScheduleUnit,
          "target state " ++ (JobState.launched).toString ++ " and unit not scheduled",
          "J", "B"⟩]
    ∧ ∀ j' ∈ (calculateClusterTasks (schedTo "B") wClustFree none).clust.jobs,
        j'.Name = "J" → j'.TargetMachineID = "B" := by
  have h := schedule_phase_places_job (schedTo "B") wClustFree [] []
    ⟨"J", JobState.launched, ""⟩ ⟨"B"⟩ (by decide) rfl rfl (by decide) rfl
  exact h

/-- C6.  When `Decide` returns an error for a job of the schedule phase
in a stop-free pass, no `AttemptScheduleUnit` task is emitted for that
job anywhere in the pass (the unschedule phase emits only
`UnscheduleUnit` tasks, so the error yields no task at all at this
decision point), the pass trace shows exactly one `ScheduleFailure`
report at the job's position, and the remaining jobs are still
processed from the unchanged snapshot — the pass is not aborted
(reconciler.go lines 144–150). -/
theorem scheduler_error_no_task (sched : Scheduler) (clust : clusterState)
    (pre post : List Job) (j : Job) (msg : String)
    (hsplit : (unschedPhase clust.agents none clust.jobs clust 0).clust.jobs
        = pre ++ j :: post)
    (hns : j.Scheduled = false)
    (hts : j.TargetState ≠ JobStateInactive)
    (hnd : (clust.jobs.map Job.Name).Nodup)
    (herr : sched (pre.foldl (schedStep sched)
        (unschedPhase clust.agents none clust.jobs clust 0).clust) j
        = Except.error msg) :
    (passTasks sched clust none).filter
        (fun t => t.JobName == j.Name && t.typ == taskTypeAttemptScheduleUnit) = []
    ∧ (calculateClusterTasks sched clust none).trace
        = (unschedPhase clust.agents none clust.jobs clust 0).trace
          ++ (schedPhase sched none pre
               (unschedPhase clust.agents none clust.jobs clust 0).clust
               (unschedPhase clust.agents none clust.jobs clust 0).polls).trace
          ++ Ev.metric (Metric.ReconcileFailure FailureKind.ScheduleFailure)
          :: (schedPhase sched none post
               (pre.foldl (schedStep sched)
                 (unschedPhase clust.agents none clust.jobs clust 0).clust)
               (unschedPhase clust.agents none clust.jobs clust 0).polls).trace := by
  have hskip : ¬(j.Scheduled = true ∨ j.TargetState = JobStateInactive) := by
    rintro (h | h)
    · rw [hns] at h
      exact Bool.false_ne_true h
    · exact hts h
  have hnd2 : ((pre ++ j :: post).map Job.Name).Nodup := by
    rw [← hsplit, unschedPhase_names]
    exact hnd
  obtain ⟨hpreName, hpostName⟩ := nodup_split_name pre post j hnd2
  have htrace2 : (schedPhase sched none
        (unschedPhase clust.agents none clust.jobs clust 0).clust.jobs
        (unschedPhase clust.agents none clust.jobs clust 0).clust
        (unschedPhase clust.agents none clust.jobs clust 0).polls).trace
      = (schedPhase sched none pre
          (unschedPhase clust.agents none clust.jobs clust 0).clust
          (unschedPhase clust.agents none clust.jobs clust 0).polls).trace
        ++ Ev.metric (Metric.ReconcileFailure FailureKind.ScheduleFailure)
        :: (schedPhase sched none post
             (pre.foldl (schedStep sched)
               (unschedPhase clust.agents none clust.jobs clust 0).clust)
             (unschedPhase clust.agents none clust.jobs clust 0).polls).trace := by
    rw [hsplit, schedPhase_trace_append_none,
      schedPhase_cons_err sched none j post _ _ msg hskip herr]
  constructor
  · rw [passTasks_none_eq, List.filter_append]
    have h1 : (clust.jobs.filterMap (p1TaskOf clust.agents)).filter
        (fun t => t.JobName == j.Name && t.typ == taskTypeAttemptScheduleUnit) = [] :=
      filter_typ_ne_nil _ taskTypeUnscheduleUnit taskTypeAttemptScheduleUnit taskType_ne
        (p1Tasks_typ clust.agents clust.jobs)
    have hpre0 : (emittedTasks (schedPhase sched none pre
          (unschedPhase clust.agents none clust.jobs clust 0).clust
          (unschedPhase clust.agents none clust.jobs clust 0).polls).trace).filter
        (fun t => t.JobName == j.Name && t.typ == taskTypeAttemptScheduleUnit) = [] := by
      rw [List.filter_eq_nil_iff]
      intro t ht hp
      obtain ⟨jj, hjj, -, -, htn⟩ := schedPhase_task_elig sched none pre _ _ t ht
      have hnm : t.JobName = j.Name := by
        have := (Bool.and_eq_true _ _).mp hp
        simpa using this.1
      exact hpreName (by
        rw [← hnm, htn] at *
        exact List.mem_map_of_mem Job.Name hjj)
    have hpost0 : (emittedTasks (schedPhase sched none post
          (pre.foldl (schedStep sched)
            (unschedPhase clust.agents none clust.jobs clust 0).clust)
          (unschedPhase clust.agents none clust.jobs clust 0).polls).trace).filter
        (fun t => t.JobName == j.Name && t.typ == taskTypeAttemptScheduleUnit) = [] := by
      rw [List.filter_eq_nil_iff]
      intro t ht hp
      obtain ⟨jj, hjj, -, -, htn⟩ := schedPhase_task_elig sched none post _ _ t ht
      have hnm : t.JobName = j.Name := by
        have := (Bool.and_eq_true _ _).mp hp
        simpa using this.1
      exact hpostName (by
        rw [← hnm, htn] at *
        exact List.mem_map_of_mem Job.Name hjj)
    rw [h1, List.nil_append, htrace2, emittedTasks_append, emittedTasks_metric,
      List.filter_append, hpre0, List.nil_append, hpost0]
  · rw [pass_none_eq]
    show (unschedPhase clust.agents none clust.jobs clust 0).trace ++ _ = _
    rw [htrace2, List.append_assoc]

/-- Witness for C6: scenario 5 of §8 flavour — unscheduled launched job,
scheduler returns the unschedulable error. -/
theorem scheduler_error_no_task_witness :
    (passTasks schedErr wClustFree none).filter
        (fun t => t.JobName == "J" && t.typ == taskTypeAttemptScheduleUnit) = []
    ∧ (calculateClusterTasks schedErr wClustFree none).trace
        = (unschedPhase wClustFree.agents none wClustFree.jobs wClustFree 0).trace
          ++ (schedPhase schedErr none []
               (unschedPhase wClustFree.agents none wClustFree.jobs wClustFree 0).clust
               (unschedPhase wClustFree.agents none wClustFree.jobs wClustFree 0).polls).trace
          ++ Ev.metric (Metric.ReconcileFailure FailureKind.ScheduleFailure)
          :: (schedPhase schedErr none []
               (List.foldl (schedStep schedErr) (unschedPhase wClustFree.agents none
                 wClustFree.jobs wClustFree 0).clust [])
               (unschedPhase wClustFree.agents none wClustFree.jobs wClustFree 0).polls).trace := by
  have h := scheduler_error_no_task schedErr wClustFree [] []
    ⟨"J", JobState.launched, ""⟩ "unschedulable" rfl rfl (by decide) (by decide) rfl
  exact h

/-- C8, counterexample.  The claim "executing a task never happens
after cancellation is signaled, for every task already handed off to
the consumer" is false on the code: `doTask` performs the Registry
write without any stop poll, so among the valid linearizations of the
producer's events with the consumer's executions (order-preserving
merges in which every execution is preceded by its hand-off) there is
one where a task handed off before the stop observation executes after
it.  Concretely: two inactive scheduled jobs, stop observable from the
second poll. -/
theorem stop_gates_every_write_counterexample :
    ¬ (∀ L : List Ev,
        isMerge (calculateClusterTasks schedErr c8clust (some 1)).trace
          ((emittedTasks (calculateClusterTasks schedErr c8clust (some 1)).trace).map Ev.exec)
          L = true →
        execsFollowHandOffs L = true →
        noExecAfterStopPoll L = true) := by
  intro h
  have h2 := h [Ev.poll false,
      Ev.handOff ⟨taskTypeUnscheduleUnit, "target state inactive", "j1", "A"⟩,
      Ev.poll true,
      Ev.exec ⟨taskTypeUnscheduleUnit, "target state inactive", "j1", "A"⟩]
    (by decide) (by decide)
  exact absurd h2 (by decide)

/-- C8, amended.  The stop signal is polled before every task hand-off
(every hand-off in the producer trace is immediately preceded by a
"not stopped" poll), but not before task execution: the consumer of
`Reconcile` executes every handed-off task unconditionally — `doTask`
contains no stop poll — so its Registry write may land after
cancellation is signaled (reconciler.go lines 63–68 and 165–184). -/
theorem stop_polled_at_handoff_not_at_write (sched : Scheduler) (e : Engine)
    (stopAt : Option Nat) (clust : clusterState)
    (hok : e.clusterState = Except.ok clust) :
    handOffsGuarded (calculateClusterTasks sched clust stopAt).trace = true
    ∧ (Reconcile sched e stopAt).1
        = emittedTasks (calculateClusterTasks sched clust stopAt).trace
    ∧ ∀ t ∈ emittedTasks (calculateClusterTasks sched clust stopAt).trace,
        Ev.exec t ∈ (Reconcile sched e stopAt).2 := by
  refine ⟨pass_handOffsGuarded sched clust stopAt, ?_, ?_⟩
  · rw [Reconcile_ok sched e stopAt clust hok]
  · intro t ht
    rw [Reconcile_ok sched e stopAt clust hok]
    exact List.mem_append_left _ (List.mem_append_right _
      (List.mem_flatMap.mpr ⟨t, ht, List.mem_cons_self _ _⟩))

/-- Witness for the amended C8 at a concrete engine and stop timing. -/
theorem stop_polled_at_handoff_not_at_write_witness :
    handOffsGuarded (calculateClusterTasks schedErr wClustInactive (some 1)).trace = true
    ∧ (Reconcile schedErr wEngine (some 1)).1
        = emittedTasks (calculateClusterTasks schedErr wClustInactive (some 1)).trace
    ∧ ∀ t ∈ emittedTasks (calculateClusterTasks schedErr wClustInactive (some 1)).trace,
        Ev.exec t ∈ (Reconcile schedErr wEngine (some 1)).2 :=
  stop_polled_at_handoff_not_at_write schedErr wEngine (some 1) wClustInactive rfl

end Fleet
